import Mathlib

/-!
# Bundle deployment engine (cmd/juju/commands/bundle.go)

A shallow embedding of the bundle deployment code and proofs of its
contract.  Go strings are Lean strings, a Go `error` is the text its
`Error()` method returns, a Go `map[string]T` is an association list with
at most one entry per key, and a panic is an explicit outcome.
-/

set_option autoImplicit false

namespace Bundle

/-! ## Strings and maps -/

/-- The text of a Go error value, as returned by its Error method. -/
abbrev GoError := String

deriving instance DecidableEq for Except

/-- Go map with string keys, as an association list. -/
abbrev GoMap (α : Type) := List (String × α)

/-- Go map read `m[key]`: the stored value, or the zero value when the key is absent. -/
def mapGet {α : Type} (zero : α) : GoMap α → String → α
  | [], _ => zero
  | (k, v) :: m, key => if k = key then v else mapGet zero m key

/-- Go map write `m[key] = val`: overwrites the entry of an existing key, adds one otherwise. -/
def mapSet {α : Type} : GoMap α → String → α → GoMap α
  | [], key, val => [(key, val)]
  | (k, v) :: m, key, val => if k = key then (k, val) :: m else (k, v) :: mapSet m key val

/-- Whether the map holds an entry for the key. -/
def mapHas {α : Type} : GoMap α → String → Bool
  | [], _ => false
  | (k, _) :: m, key => if k = key then true else mapHas m key

/-- The table of results of the changes applied so far (bundleHandler.results). -/
abbrev ResultTable := GoMap String

/-- Go strings.HasPrefix. -/
def HasPrefix (s pre : String) : Bool :=
  pre.data.isPrefixOf s.data

/-- Go strings.HasSuffix. -/
def HasSuffix (s suf : String) : Bool :=
  suf.data.isSuffixOf s.data

/-- Go slice expression `s[1:]`, used on strings whose first byte is a one-byte character. -/
def sliceFrom1 (s : String) : String :=
  String.mk (s.data.drop 1)

/-- Cuts a character list around its first colon, when it has one. -/
def cutColon : List Char → Option (List Char × List Char)
  | [] => none
  | c :: cs =>
    if c = ':' then some ([], cs)
    else match cutColon cs with
      | none => none
      | some (a, b) => some (c :: a, b)

/-- Go strings.SplitN(e, ":", 2): the text before the first colon and, when there is a
colon, the text after it (a result of length one or two). -/
def SplitN2 (e : String) : String × Option String :=
  match cutColon e.data with
  | none => (e, none)
  | some (a, b) => (String.mk a, some (String.mk b))

/-- errors.Annotate: the message is put in front of the error text. -/
def Annotate (err : GoError) (message : String) : GoError :=
  message ++ ": " ++ err

/-! ## Placeholder resolution -/

/-- The value resolve panics with. -/
def resolvePanic : String := "placeholder does not start with \"$\""

/-- Source function resolve: `Except.error v` is a panic with value v. -/
def resolve (placeholder : String) (results : ResultTable) : Except String String :=
  if !HasPrefix placeholder "$" then
    .error resolvePanic
  else
    let id := sliceFrom1 placeholder
    .ok (mapGet "" results id)

/-- Source function resolveRelation; a panic of resolve propagates. -/
def resolveRelation (e : String) (results : ResultTable) : Except String String :=
  let parts := SplitN2 e
  match resolve parts.1 results with
  | .error v => .error v
  | .ok service =>
    match parts.2 with
    | none => .ok service
    | some rest => .ok (service ++ ":" ++ rest)

/-! ## Changes

The change types come from the bundlechanges library.  The fields the code reads keep
their names; the others follow the data model of the specification. -/

/-- Parameters of an AddCharm change (bundlechanges.AddCharmParams). -/
structure AddCharmParams where
  Charm : String
deriving DecidableEq, Repr

/-- Modelled from the spec: the parameters of an AddMachine change, declared outside the
sources at hand; the data model gives constraints, container type and parent id. -/
structure AddMachineParams where
  Constraints : String
  ContainerType : String
  ParentId : String
deriving DecidableEq, Repr

/-- Parameters of an AddRelation change (bundlechanges.AddRelationParams). -/
structure AddRelationParams where
  Endpoint1 : String
  Endpoint2 : String
deriving DecidableEq, Repr

/-- Parameters of an AddService change (bundlechanges.AddServiceParams); V is the type of
an option value (Go `interface{}`). -/
structure AddServiceParams (V : Type) where
  Charm : String
  Service : String
  Options : GoMap V
deriving DecidableEq, Repr

/-- Modelled from the spec: the parameters of an AddUnit change, declared outside the
sources at hand; the data model gives the service and the placement. -/
structure AddUnitParams where
  Service : String
  To : String
deriving DecidableEq, Repr

/-- Modelled from the spec: the parameters of a SetAnnotations change, declared outside the
sources at hand; the data model gives the target, its kind and the annotations. -/
structure SetAnnotationsParams where
  Id : String
  EntityType : String
  Annotations : GoMap String
deriving DecidableEq, Repr

/-- A value of the interface bundlechanges.Change: one of the six pointer types the type
switch of deployBundle knows, or a value of any other Go type, of which the id and the type
name (what the verb %T prints) are kept. -/
inductive Change (V : Type) where
  | AddCharmChange (id : String) (Params : AddCharmParams)
  | AddMachineChange (id : String) (Params : AddMachineParams)
  | AddRelationChange (id : String) (Params : AddRelationParams)
  | AddServiceChange (id : String) (Params : AddServiceParams V)
  | AddUnitChange (id : String) (Params : AddUnitParams)
  | SetAnnotationsChange (id : String) (Params : SetAnnotationsParams)
  | other (id : String) (typeName : String)
deriving DecidableEq, Repr

/-- Method Id of a change. -/
def Change.Id {V : Type} : Change V → String
  | .AddCharmChange id _ => id
  | .AddMachineChange id _ => id
  | .AddRelationChange id _ => id
  | .AddServiceChange id _ => id
  | .AddUnitChange id _ => id
  | .SetAnnotationsChange id _ => id
  | .other id _ => id

/-! ## External collaborators -/

/-- Modelled from the spec: constraints.Value is declared outside the sources at hand; it is
a set of named constraints, and the zero value `constraints.Value{}` has none. -/
abbrev ConstraintsValue := List (String × String)

/-- What a Go function of result type `error` does: it returns nil, returns an error, or
panics. -/
inductive Ret where
  | nil
  | err (e : GoError)
  | panic (v : String)
deriving DecidableEq, Repr

/-- The collaborators of bundle.go that live outside it, taken as parameters.  The type σ is
the state of the world the API client and the charm store client talk to; every call takes
the state and gives the next one.  U is charm.URL, R is the charm repository handle,
V the type of an option value.  The arguments that are fixed for a run (charm store
parameters, repository path, environment configuration) are part of the environment. -/
structure Env (σ U R V : Type) where
  /-- Function resolveCharmStoreEntityURL of the commands package. -/
  resolveCharmStoreEntityURL : σ → String → σ × Except GoError (U × R)
  /-- Function addCharmViaAPI of the commands package. -/
  addCharmViaAPI : σ → U → R → σ × Except GoError U
  /-- Method api.Client.ServiceDeploy (deploy-service). -/
  ServiceDeploy : σ → String → String → Int → String → ConstraintsValue → String →
    σ × Option GoError
  /-- Method api.Client.ServiceGetCharmURL (get-service-charm-url). -/
  ServiceGetCharmURL : σ → String → σ × Except GoError U
  /-- Method api.Client.ServiceSetCharm (set-service-charm-url). -/
  ServiceSetCharm : σ → String → String → Bool → σ × Option GoError
  /-- Method api.Client.ServiceSetYAML (set-service-config). -/
  ServiceSetYAML : σ → String → String → σ × Option GoError
  /-- Method api.Client.AddRelation (add-relation); only its error result is used. -/
  AddRelation : σ → String → String → σ × Option GoError
  /-- Method String of charm.URL. -/
  urlString : U → String
  /-- Field Series of charm.URL. -/
  urlSeries : U → String
  /-- Function charm.ParseURL. -/
  ParseURL : String → Except GoError U
  /-- Method WithRevision of charm.URL. -/
  WithRevision : U → Int → U
  /-- Method Path of charm.URL. -/
  Path : U → String
  /-- The call yaml.Marshal on the one-entry map from the service name to its options. -/
  yamlMarshal : String → GoMap V → Except GoError String
  /-- The formatting verb %q on a string. -/
  quote : String → String

/-- One call to a collaborator, with its arguments. -/
inductive Call (U R : Type) where
  | resolveCharmStoreEntityURL (charm : String)
  | addCharmViaAPI (url : U) (repo : R)
  | ServiceDeploy (charmURL serviceName : String) (numUnits : Int) (configYAML : String)
      (cons : ConstraintsValue) (toMachineSpec : String)
  | ServiceGetCharmURL (serviceName : String)
  | ServiceSetCharm (serviceName charmURL : String) (force : Bool)
  | ServiceSetYAML (serviceName yaml : String)
  | AddRelation (endpoint1 endpoint2 : String)
deriving DecidableEq, Repr

/-- Whether the call is the charm-upgrade operation. -/
def Call.isSetCharm {U R : Type} : Call U R → Bool
  | .ServiceSetCharm _ _ _ => true
  | _ => false

/-- Whether the call is the config operation. -/
def Call.isSetYAML {U R : Type} : Call U R → Bool
  | .ServiceSetYAML _ _ => true
  | _ => false

/-! ## The handler -/

/-- The part of bundleHandler that changes during a run: the result table, the state of the
world behind the clients, and, as a record of what was observable, the calls made and the
lines logged, oldest first.  The field `changes` of the source is filled before the loop
and never read, and is left out. -/
structure bundleHandler (σ U R : Type) where
  results : ResultTable
  client : σ
  calls : List (Call U R)
  log : List String
deriving DecidableEq, Repr

section Handlers

variable {σ U R V : Type}

/-- Records a call and the state of the world after it. -/
def bundleHandler.called (h : bundleHandler σ U R) (c : Call U R) (after : σ) :
    bundleHandler σ U R :=
  { h with client := after, calls := h.calls ++ [c] }

/-- Method Infof of the deployment logger, with the message already formatted. -/
def bundleHandler.Infof (h : bundleHandler σ U R) (line : String) : bundleHandler σ U R :=
  { h with log := h.log ++ [line] }

/-- The assignment `h.results[key] = val`. -/
def bundleHandler.setResult (h : bundleHandler σ U R) (key val : String) : bundleHandler σ U R :=
  { h with results := mapSet h.results key val }

/-- Source function isErrServiceExists. -/
def isErrServiceExists (err : GoError) : Bool :=
  HasSuffix err "service already exists"

/-- Source function isErrRelationExists. -/
def isErrRelationExists (err : GoError) : Bool :=
  HasSuffix err "relation already exists"

/-- Source method bundleHandler.addCharm. -/
def bundleHandler.addCharm (env : Env σ U R V) (h : bundleHandler σ U R) (_id : String)
    (p : AddCharmParams) : bundleHandler σ U R × Ret :=
  match env.resolveCharmStoreEntityURL h.client p.Charm with
  | (c1, .error err) =>
    (h.called (.resolveCharmStoreEntityURL p.Charm) c1,
      .err (Annotate err ("cannot resolve URL " ++ env.quote p.Charm)))
  | (c1, .ok (url, repo)) =>
    let h1 := h.called (.resolveCharmStoreEntityURL p.Charm) c1
    if env.urlSeries url = "bundle" then
      (h1, .err ("expected charm URL, got bundle URL " ++ env.quote p.Charm))
    else
      match env.addCharmViaAPI h1.client url repo with
      | (c2, .error err) =>
        (h1.called (.addCharmViaAPI url repo) c2,
          .err (Annotate err ("cannot add charm " ++ env.quote p.Charm)))
      | (c2, .ok url2) =>
        let h2 := (h1.called (.addCharmViaAPI url repo) c2).Infof
          ("added charm " ++ env.urlString url2)
        (h2.setResult ("resolved-" ++ p.Charm) (env.urlString url2), .nil)

/-- Source function upgradeCharm; the client and the logger are those of the handler. -/
def upgradeCharm (env : Env σ U R V) (h : bundleHandler σ U R) (service id : String) :
    bundleHandler σ U R × Ret :=
  match env.ServiceGetCharmURL h.client service with
  | (c1, .error err) =>
    (h.called (.ServiceGetCharmURL service) c1,
      .err (Annotate err ("cannot retrieve info for service " ++ env.quote service)))
  | (c1, .ok existing) =>
    let h1 := h.called (.ServiceGetCharmURL service) c1
    if env.urlString existing = id then
      (h1.Infof ("reusing service " ++ service ++ " (charm: " ++ id ++ ")"), .nil)
    else
      match env.ParseURL id with
      | .error err => (h1, .err (Annotate err ("cannot parse charm URL " ++ env.quote id)))
      | .ok url =>
        if env.Path (env.WithRevision url (-1)) ≠ env.Path (env.WithRevision existing (-1)) then
          (h1, .err ("bundle charm " ++ env.quote id ++ " is incompatible with existing charm "
            ++ env.quote (env.urlString existing)))
        else
          match env.ServiceSetCharm h1.client service id false with
          | (c2, some err) =>
            (h1.called (.ServiceSetCharm service id false) c2,
              .err (Annotate err ("cannot upgrade charm to " ++ env.quote id)))
          | (c2, none) =>
            ((h1.called (.ServiceSetCharm service id false) c2).Infof
              ("upgraded charm for existing service " ++ service ++ " (from "
                ++ env.urlString existing ++ " to " ++ id ++ ")"), .nil)

/-- Source function setServiceOptions. -/
def setServiceOptions (env : Env σ U R V) (h : bundleHandler σ U R) (service : String)
    (options : GoMap V) : bundleHandler σ U R × Ret :=
  match env.yamlMarshal service options with
  | .error err =>
    (h, .err (Annotate err ("cannot marshal options for service " ++ env.quote service)))
  | .ok config =>
    match env.ServiceSetYAML h.client service config with
    | (c1, some err) =>
      (h.called (.ServiceSetYAML service config) c1,
        .err (Annotate err ("cannot set options for service " ++ env.quote service)))
    | (c1, none) => (h.called (.ServiceSetYAML service config) c1, .nil)

/-- First part of bundleHandler.addService (the statements before the options are looked
at): the charm is read from the results, the service is deployed and, when it exists
already, reused or upgraded. -/
def deployOrUpgrade (env : Env σ U R V) (h : bundleHandler σ U R) (p : AddServiceParams V) :
    bundleHandler σ U R × Ret :=
  let ch := mapGet "" h.results ("resolved-" ++ p.Charm)
  match env.ServiceDeploy h.client ch p.Service 0 "" [] "" with
  | (c1, none) =>
    ((h.called (.ServiceDeploy ch p.Service 0 "" [] "") c1).Infof
      ("service " ++ p.Service ++ " deployed (charm: " ++ ch ++ ")"), .nil)
  | (c1, some err) =>
    let h1 := h.called (.ServiceDeploy ch p.Service 0 "" [] "") c1
    if isErrServiceExists err then
      match upgradeCharm env h1 p.Service ch with
      | (h2, .err e) => (h2, .err (Annotate e ("cannot upgrade service " ++ env.quote p.Service)))
      | (h2, r) => (h2, r)
    else
      (h1, .err (Annotate err ("cannot deploy service " ++ env.quote p.Service)))

/-- Second part of bundleHandler.addService: the statement `if len(p.Options) > 0`; the
error of setServiceOptions goes through errors.Trace, which keeps its text. -/
def configure (env : Env σ U R V) (h : bundleHandler σ U R) (p : AddServiceParams V) :
    bundleHandler σ U R × Ret :=
  if p.Options.length > 0 then
    match setServiceOptions env h p.Service p.Options with
    | (h3, .nil) => (h3.Infof ("service " ++ p.Service ++ " configured"), .nil)
    | (h3, r) => (h3, r)
  else (h, .nil)

/-- Source method bundleHandler.addService: its two parts, then the result is recorded. -/
def bundleHandler.addService (env : Env σ U R V) (h : bundleHandler σ U R) (id : String)
    (p : AddServiceParams V) : bundleHandler σ U R × Ret :=
  match deployOrUpgrade env h p with
  | (h2, .nil) =>
    match configure env h2 p with
    | (h3, .nil) => (h3.setResult id p.Service, .nil)
    | (h3, r) => (h3, r)
  | (h2, r) => (h2, r)

/-- Source method bundleHandler.addMachine. -/
def bundleHandler.addMachine (_env : Env σ U R V) (h : bundleHandler σ U R) (_id : String)
    (_p : AddMachineParams) : bundleHandler σ U R × Ret :=
  (h, .nil)

/-- Source method bundleHandler.addRelation. -/
def bundleHandler.addRelation (env : Env σ U R V) (h : bundleHandler σ U R) (_id : String)
    (p : AddRelationParams) : bundleHandler σ U R × Ret :=
  match resolveRelation p.Endpoint1 h.results with
  | .error v => (h, .panic v)
  | .ok ep1 =>
    match resolveRelation p.Endpoint2 h.results with
    | .error v => (h, .panic v)
    | .ok ep2 =>
      match env.AddRelation h.client ep1 ep2 with
      | (c1, none) =>
        ((h.called (.AddRelation ep1 ep2) c1).Infof ("related " ++ ep1 ++ " and " ++ ep2), .nil)
      | (c1, some err) =>
        let h1 := h.called (.AddRelation ep1 ep2) c1
        if isErrRelationExists err then
          (h1.Infof (ep1 ++ " and " ++ ep2 ++ " are already related"), .nil)
        else
          (h1, .err (Annotate err ("cannot add relation between " ++ env.quote ep1 ++ " and "
            ++ env.quote ep2)))

/-- Source method bundleHandler.addUnit. -/
def bundleHandler.addUnit (_env : Env σ U R V) (h : bundleHandler σ U R) (_id : String)
    (_p : AddUnitParams) : bundleHandler σ U R × Ret :=
  (h, .nil)

/-- Source method bundleHandler.setAnnotations. -/
def bundleHandler.setAnnotations (_env : Env σ U R V) (h : bundleHandler σ U R) (_id : String)
    (_p : SetAnnotationsParams) : bundleHandler σ U R × Ret :=
  (h, .nil)

/-- The type switch in the loop of deployBundle: the handler of a change of a known type,
run on the change, and nothing for a change of any other type (the default case). -/
def dispatch (env : Env σ U R V) (h : bundleHandler σ U R) :
    Change V → Option (bundleHandler σ U R × Ret)
  | .AddCharmChange id p => some (h.addCharm env id p)
  | .AddMachineChange id p => some (h.addMachine env id p)
  | .AddRelationChange id p => some (h.addRelation env id p)
  | .AddServiceChange id p => some (h.addService env id p)
  | .AddUnitChange id p => some (h.addUnit env id p)
  | .SetAnnotationsChange id p => some (h.setAnnotations env id p)
  | .other _ _ => none

/-- The typed name the verb %T prints for a change. -/
def Change.typeName {V : Type} : Change V → String
  | .AddCharmChange _ _ => "*bundlechanges.AddCharmChange"
  | .AddMachineChange _ _ => "*bundlechanges.AddMachineChange"
  | .AddRelationChange _ _ => "*bundlechanges.AddRelationChange"
  | .AddServiceChange _ _ => "*bundlechanges.AddServiceChange"
  | .AddUnitChange _ _ => "*bundlechanges.AddUnitChange"
  | .SetAnnotationsChange _ _ => "*bundlechanges.SetAnnotationsChange"
  | .other _ t => t

/-- The loop `for _, change := range changes` of deployBundle, from handler state h. -/
def deployLoop (env : Env σ U R V) :
    bundleHandler σ U R → List (Change V) → bundleHandler σ U R × Ret
  | h, [] => (h, .nil)
  | h, change :: rest =>
    match dispatch env h change with
    | none => (h, .err ("unknown change type: " ++ change.typeName))
    | some (h1, .nil) => deployLoop env h1 rest
    | some (h1, .err err) => (h1, .err (Annotate err "cannot deploy bundle"))
    | some (h1, .panic v) => (h1, .panic v)

/-- The handler deployBundle creates: an empty result table. -/
def newHandler (client : σ) : bundleHandler σ U R :=
  { results := [], client := client, calls := [], log := [] }

/-- Source function deployBundle.  The argument `verify` is what `data.Verify` returns and
`changes` is what `bundlechanges.FromData(data)` returns; both are computed from the bundle
data outside bundle.go.  The result is the final handler state and what the function does. -/
def deployBundle (env : Env σ U R V) (verify : Option GoError) (changes : List (Change V))
    (client : σ) : bundleHandler σ U R × Ret :=
  match verify with
  | some err => (newHandler client, .err (Annotate err "cannot deploy bundle"))
  | none => deployLoop env (newHandler client) changes

end Handlers

/-! ## Observations on a run -/

section Observations

variable {σ U R V : Type}

/-- The calls the handler of a change makes when it is run from state h: what it adds to
the record of calls.  A change of unknown type has no handler and makes none. -/
def handlerCalls (env : Env σ U R V) (h : bundleHandler σ U R) (c : Change V) :
    List (Call U R) :=
  match dispatch env h c with
  | some (h1, _) => h1.calls.drop h.calls.length
  | none => []

/-- Whether the handler of every change of the sequence returns nil, each one run from the
state its predecessor left. -/
def handlersSucceed (env : Env σ U R V) : bundleHandler σ U R → List (Change V) → Bool
  | _, [] => true
  | h, c :: cs =>
    match dispatch env h c with
    | some (h1, .nil) => handlersSucceed env h1 cs
    | _ => false

/-- The calls of the handlers of the changes, one change after the other in the order of
the sequence, each handler run from the state its predecessor left. -/
def callsInOrder (env : Env σ U R V) : bundleHandler σ U R → List (Change V) → List (Call U R)
  | _, [] => []
  | h, c :: cs =>
    match dispatch env h c with
    | some (h1, _) => handlerCalls env h c ++ callsInOrder env h1 cs
    | none => []

/-- The state after the handlers of the changes have run one after the other, in the order
of the sequence and once each, whatever each returned. -/
def applyAll (env : Env σ U R V) (h : bundleHandler σ U R) (cs : List (Change V)) :
    bundleHandler σ U R :=
  cs.foldl (fun st c =>
    match dispatch env st c with
    | some (st1, _) => st1
    | none => st) h

/-- A handler state whose record of calls extends that of another. -/
def Extends (h h1 : bundleHandler σ U R) : Prop :=
  ∃ l, h1.calls = h.calls ++ l

/-- The charm reference an AddService change deploys: what the AddCharm handler recorded
for the charm of the change (the local `ch` of addService). -/
abbrev targetCharm (h : bundleHandler σ U R) (p : AddServiceParams V) : String :=
  mapGet "" h.results ("resolved-" ++ p.Charm)

/-- The deploy-service call of an AddService change. -/
abbrev deployCall (h : bundleHandler σ U R) (p : AddServiceParams V) : Call U R :=
  .ServiceDeploy (targetCharm h p) p.Service 0 "" [] ""

/-- The state after the deploy-service call (world c1) and the get-service-charm-url
query (world c2) of an AddService change. -/
abbrev queried (h : bundleHandler σ U R) (p : AddServiceParams V) (c1 c2 : σ) :
    bundleHandler σ U R :=
  (h.called (deployCall h p) c1).called (.ServiceGetCharmURL p.Service) c2

/-- The state after the service was found to run the target charm already. -/
abbrev reused (h : bundleHandler σ U R) (p : AddServiceParams V) (c1 c2 : σ) :
    bundleHandler σ U R :=
  (queried h p c1 c2).Infof
    ("reusing service " ++ p.Service ++ " (charm: " ++ targetCharm h p ++ ")")

/-- The state after the charm of the existing service (reference e) was upgraded to the
target charm by a set-service-charm-url call made in world c2. -/
abbrev upgraded (env : Env σ U R V) (h : bundleHandler σ U R) (p : AddServiceParams V)
    (c1 c2 : σ) (e : U) : bundleHandler σ U R :=
  ((queried h p c1 c2).called (.ServiceSetCharm p.Service (targetCharm h p) false)
    (env.ServiceSetCharm c2 p.Service (targetCharm h p) false).1).Infof
    ("upgraded charm for existing service " ++ p.Service ++ " (from " ++ env.urlString e
      ++ " to " ++ targetCharm h p ++ ")")

/-- The calls a handler added to the record of calls of state h. -/
def newCalls (h h1 : bundleHandler σ U R) : List (Call U R) :=
  h1.calls.drop h.calls.length

/-- Whether a change, applied in state h, goes through its already-exists branch: the
deploy-service call of an AddService change is answered "service already exists", the
add-relation call of an AddRelation change "relation already exists".  The other changes
have no such branch. -/
def viaExists (env : Env σ U R V) (h : bundleHandler σ U R) : Change V → Bool
  | .AddServiceChange _ p =>
    match (env.ServiceDeploy h.client (targetCharm h p) p.Service 0 "" [] "").2 with
    | some err => isErrServiceExists err
    | none => false
  | .AddRelationChange _ p =>
    match resolveRelation p.Endpoint1 h.results, resolveRelation p.Endpoint2 h.results with
    | .ok ep1, .ok ep2 =>
      match (env.AddRelation h.client ep1 ep2).2 with
      | some err => isErrRelationExists err
      | none => false
    | _, _ => false
  | _ => true

end Observations

/-! ## A control plane that retains state

A small executable control plane, used to run the engine on concrete bundles.  A charm
reference is kept as its text. -/

/-- Modelled from the spec: the state of the control plane behind the API client and the
charm store client, which are outside bundle.go.  The plane retains what the operations of
the control-plane interface create: the charms added, the services deployed with their
charms and configuration, the relations established. -/
structure Plane where
  /-- The charm store: the reference a charm name resolves to. -/
  store : GoMap String
  /-- The charms added to the environment. -/
  charms : List String
  /-- The deployed services, each with the reference of its charm. -/
  services : GoMap String
  /-- The configuration last set on each service. -/
  configs : GoMap String
  /-- The services that refuse a change of configuration. -/
  frozen : List String
  /-- The established relations. -/
  relations : List (String × String)
deriving DecidableEq, Repr

/-- Drops a final "-N" (N decimal digits, at least one) from a reversed character list. -/
def dropRevisionRev (rev : List Char) : List Char :=
  match rev.dropWhile Char.isDigit with
  | '-' :: front => if rev.head?.any Char.isDigit then front else rev
  | _ => rev

/-- The text after the first colon (the whole text when there is none). -/
def afterColon (s : String) : String :=
  match cutColon s.data with
  | none => s
  | some (_, b) => String.mk b

/-- The text up to the first slash, or nothing when there is no slash. -/
def beforeSlash : List Char → Option (List Char)
  | [] => none
  | c :: cs =>
    if c = '/' then some []
    else match beforeSlash cs with
      | none => none
      | some a => some (c :: a)

/-- Modelled from the spec: the operations of the control-plane interface on a plane that
retains state.  Deploy-service answers "service already exists" for a deployed service,
add-relation answers "relation already exists" for an established relation, and
get-service-charm-url gives the charm the service was last deployed with or upgraded to.
A charm must have been added before a service is deployed from it, a frozen service
refuses a change of configuration, and a relation needs both services deployed. -/
def planeEnv : Env Plane String Unit String where
  resolveCharmStoreEntityURL := fun w charm =>
    if mapHas w.store charm then (w, .ok (mapGet "" w.store charm, ()))
    else (w, .error ("charm not found: " ++ charm))
  addCharmViaAPI := fun w url _ =>
    ({ w with charms := if url ∈ w.charms then w.charms else w.charms ++ [url] }, .ok url)
  ServiceDeploy := fun w charmURL service _ _ _ _ =>
    if mapHas w.services service then
      (w, some ("cannot add service \"" ++ service ++ "\": service already exists"))
    else if charmURL ∈ w.charms then
      ({ w with services := mapSet w.services service charmURL }, none)
    else (w, some ("charm \"" ++ charmURL ++ "\" not found"))
  ServiceGetCharmURL := fun w service =>
    if mapHas w.services service then (w, .ok (mapGet "" w.services service))
    else (w, .error ("service \"" ++ service ++ "\" not found"))
  ServiceSetCharm := fun w service url _ =>
    if mapHas w.services service then
      ({ w with services := mapSet w.services service url }, none)
    else (w, some ("service \"" ++ service ++ "\" not found"))
  ServiceSetYAML := fun w service yaml =>
    if service ∈ w.frozen then (w, some ("configuration of \"" ++ service ++ "\" is frozen"))
    else if mapHas w.services service then
      ({ w with configs := mapSet w.configs service yaml }, none)
    else (w, some ("service \"" ++ service ++ "\" not found"))
  AddRelation := fun w ep1 ep2 =>
    if (ep1, ep2) ∈ w.relations then
      (w, some ("cannot add relation \"" ++ ep1 ++ " " ++ ep2 ++ "\": relation already exists"))
    else if mapHas w.services (SplitN2 ep1).1 && mapHas w.services (SplitN2 ep2).1 then
      ({ w with relations := w.relations ++ [(ep1, ep2)] }, none)
    else (w, some ("service not found"))
  urlString := fun u => u
  urlSeries := fun u =>
    match beforeSlash (afterColon u).data with
    | none => ""
    | some a => String.mk a
  ParseURL := fun s =>
    if (cutColon s.data).isSome then .ok s else .error ("charm URL has no schema: " ++ s)
  WithRevision := fun u rev =>
    let base := String.mk (dropRevisionRev u.data.reverse).reverse
    if rev < 0 then base else base ++ "-" ++ toString rev
  Path := afterColon
  yamlMarshal := fun service options =>
    .ok (options.foldl (fun acc o => acc ++ "  " ++ o.1 ++ ": " ++ o.2 ++ "\n") (service ++ ":\n"))
  quote := fun s => "\"" ++ s ++ "\""

/-- A plane with a charm store that knows wordpress, mediawiki and mysql, and nothing
deployed. -/
def emptyPlane : Plane where
  store := [("cs:trusty/wordpress", "cs:trusty/wordpress-5"),
            ("cs:trusty/mediawiki", "cs:trusty/mediawiki-1"),
            ("cs:trusty/mysql", "cs:trusty/mysql-10")]
  charms := []
  services := []
  configs := []
  frozen := []
  relations := []

/-- A plane where the service "blog" runs the charm "cs:trusty/wordpress-3". -/
def blogPlane : Plane :=
  { emptyPlane with charms := ["cs:trusty/wordpress-3"],
                    services := [("blog", "cs:trusty/wordpress-3")] }

/-- A bundle of five changes: two charms, two services and a relation between them. -/
def sampleBundle : List (Change String) :=
  [.AddCharmChange "addCharm-0" ⟨"cs:trusty/mysql"⟩,
   .AddServiceChange "deploy-1" ⟨"cs:trusty/mysql", "mysql", [("tuning", "fast")]⟩,
   .AddCharmChange "addCharm-2" ⟨"cs:trusty/wordpress"⟩,
   .AddServiceChange "deploy-3" ⟨"cs:trusty/wordpress", "blog", []⟩,
   .AddRelationChange "addRelation-4" ⟨"$deploy-3:db", "$deploy-1:db"⟩]

/-- The two changes that open the failing bundle. -/
def twoChanges : List (Change String) :=
  [.AddCharmChange "addCharm-0" ⟨"cs:trusty/mysql"⟩,
   .AddServiceChange "deploy-1" ⟨"cs:trusty/mysql", "mysql", []⟩]

/-- A third change that fails: its charm is unknown to the charm store. -/
def failingChange : Change String :=
  .AddCharmChange "addCharm-2" ⟨"cs:trusty/ghost"⟩

/-- The two changes that follow the failing one. -/
def lastChanges : List (Change String) :=
  [.AddCharmChange "addCharm-3" ⟨"cs:trusty/wordpress"⟩,
   .AddServiceChange "deploy-4" ⟨"cs:trusty/wordpress", "blog", []⟩]

/-- The state the two opening changes leave on an empty control plane. -/
def afterTwo : bundleHandler Plane String Unit :=
  (deployBundle planeEnv none twoChanges emptyPlane).1

/-- The state the failing change leaves after them. -/
def afterFailure : bundleHandler Plane String Unit :=
  (afterTwo.addCharm planeEnv "addCharm-2" ⟨"cs:trusty/ghost"⟩).1

/-- A handler state on the plane where "blog" runs wordpress-3, once the charm of the
bundle has been resolved to the given reference. -/
def blogHandler (charm resolved : String) (frozen : List String) :
    bundleHandler Plane String Unit :=
  { results := [("resolved-" ++ charm, resolved)],
    client := { blogPlane with frozen := frozen },
    calls := [],
    log := [] }

/-- The state the sample bundle leaves on an empty control plane, with its calls and log
cleared: the start of a second run on the same results. -/
def relatedHandler : bundleHandler Plane String Unit :=
  { (deployBundle planeEnv none sampleBundle emptyPlane).1 with calls := [], log := [] }

/-! ## Error texts -/

/-- Whether the characters of sub occur, in a row, in the list. -/
def containsChars (sub : List Char) : List Char → Bool
  | [] => sub.isEmpty
  | c :: cs => sub.isPrefixOf (c :: cs) || containsChars sub cs

/-- Go strings.Contains. -/
def Contains (s sub : String) : Bool :=
  containsChars sub.data s.data

/-- A one-change bundle whose relation cannot be added: no service is deployed. -/
def lonelyRelation : List (Change String) :=
  [.AddRelationChange "addRelation-0" ⟨"$deploy-1:db", "$deploy-2:db"⟩]

/-- A one-change bundle with a change of a type the engine does not know. -/
def strangeBundle : List (Change String) :=
  [.other "scale-1" "*bundlechanges.ScaleChange"]

/-- What the text of a handler error names of the change that failed: the charm of an
AddCharm change, the service of an AddService change, the resolved endpoints of an
AddRelation change, each as the verb %q prints it. -/
def namesOperand {σ U R V : Type} (env : Env σ U R V) (h : bundleHandler σ U R)
    (c : Change V) (msg : GoError) : Prop :=
  match c with
  | .AddCharmChange _ p => Contains msg (env.quote p.Charm) = true
  | .AddServiceChange _ p => Contains msg (env.quote p.Service) = true
  | .AddRelationChange _ p =>
    ∃ ep1 ep2, resolveRelation p.Endpoint1 h.results = .ok ep1 ∧
      resolveRelation p.Endpoint2 h.results = .ok ep2 ∧
      Contains msg (env.quote ep1) = true ∧ Contains msg (env.quote ep2) = true
  | _ => True

/-! ## More sample states -/

/-- A handler state where the charm "cs:trusty/mysql" has been added and no service is
deployed. -/
def mysqlHandler : bundleHandler Plane String Unit :=
  { results := [("resolved-cs:trusty/mysql", "cs:trusty/mysql-10")],
    client := { emptyPlane with charms := ["cs:trusty/mysql-10"] },
    calls := [],
    log := [] }

/-! ## Replay on the sample control plane -/

/-- The state of relatedHandler with the relation taken away again: the two services are
deployed and not yet related. -/
def unrelatedHandler : bundleHandler Plane String Unit :=
  { relatedHandler with client := { relatedHandler.client with relations := [] } }

/-- The same change under another id. -/
def Change.withId {V : Type} (c : Change V) (id : String) : Change V :=
  match c with
  | .AddCharmChange _ p => .AddCharmChange id p
  | .AddMachineChange _ p => .AddMachineChange id p
  | .AddRelationChange _ p => .AddRelationChange id p
  | .AddServiceChange _ p => .AddServiceChange id p
  | .AddUnitChange _ p => .AddUnitChange id p
  | .SetAnnotationsChange _ p => .SetAnnotationsChange id p
  | .other _ t => .other id t

/-! ## Planes on which a replay fails -/

/-- A control plane that gives the answers of the sample plane, except that the
configuration of a service can be written once only: set-service-config refuses a service
that has a configuration already. -/
def onceEnv : Env Plane String Unit String where
  resolveCharmStoreEntityURL := planeEnv.resolveCharmStoreEntityURL
  addCharmViaAPI := planeEnv.addCharmViaAPI
  ServiceDeploy := planeEnv.ServiceDeploy
  ServiceGetCharmURL := planeEnv.ServiceGetCharmURL
  ServiceSetCharm := planeEnv.ServiceSetCharm
  ServiceSetYAML := fun w service yaml =>
    if mapHas w.configs service then
      (w, some ("configuration of \"" ++ service ++ "\" is already set"))
    else planeEnv.ServiceSetYAML w service yaml
  AddRelation := planeEnv.AddRelation
  urlString := planeEnv.urlString
  urlSeries := planeEnv.urlSeries
  ParseURL := planeEnv.ParseURL
  WithRevision := planeEnv.WithRevision
  Path := planeEnv.Path
  yamlMarshal := planeEnv.yamlMarshal
  quote := planeEnv.quote

/-- A plane whose charm store holds a reference without a schema, which does not parse as a
charm URL. -/
def loosePlane : Plane :=
  { emptyPlane with store := [("wordpress-old", "wordpress-3"),
                              ("wordpress-new", "cs:wordpress-5")] }

/-- A bundle that deploys the service "blog" and then moves it to another revision of its
charm. -/
def twiceBundle : List (Change String) :=
  [.AddCharmChange "addCharm-0" ⟨"wordpress-old"⟩,
   .AddServiceChange "deploy-1" ⟨"wordpress-old", "blog", []⟩,
   .AddCharmChange "addCharm-2" ⟨"wordpress-new"⟩,
   .AddServiceChange "deploy-3" ⟨"wordpress-new", "blog", []⟩]

/-! ## Control planes that retain state -/

section Retention

variable {σ U R V : Type}

/-- What is observed of the state of a control plane: which states it can be in, the charm
reference each deployed service runs, the relations that are established, and the path of a
charm reference once its revision is dropped. -/
structure View (σ : Type) where
  good : σ → Prop
  charmOf : σ → String → Option String
  related : σ → String → String → Prop
  pathOf : String → String

/-- A later state of a control plane: the services deployed are still deployed, each on a
charm of the same path, the relations established are still established, a
set-service-config call that is accepted is still accepted, and resolving and adding a charm
answer as before. -/
def Later (env : Env σ U R V) (vw : View σ) (w w1 : σ) : Prop :=
  (∀ s c, vw.charmOf w s = some c →
    ∃ c1, vw.charmOf w1 s = some c1 ∧ vw.pathOf c1 = vw.pathOf c) ∧
  (∀ a b, vw.related w a b → vw.related w1 a b) ∧
  (∀ s y, (env.ServiceSetYAML w s y).2 = none → (env.ServiceSetYAML w1 s y).2 = none) ∧
  (∀ charm, (env.resolveCharmStoreEntityURL w1 charm).2
    = (env.resolveCharmStoreEntityURL w charm).2) ∧
  (∀ url repo, (env.addCharmViaAPI w1 url repo).2 = (env.addCharmViaAPI w url repo).2)

/-- Modelled from the spec: a control plane that retains state, whose operations are
outside bundle.go, seen through a view of its states.  It gives the three answers of a
retaining plane: deploy-service answers "service already exists" for a
deployed service, add-relation answers "relation already exists" for an established
relation, and get-service-charm-url gives the charm the service was last deployed with or
upgraded to.  Its operations record what they do, every operation leads to a later state,
set-service-charm-url accepts a charm of the same path for a deployed service, the charm
references it deploys or reports parse as charm URLs, and the path that upgradeCharm
compares is the path of the reference. -/
structure Retaining (env : Env σ U R V) (vw : View σ) : Prop where
  deploy_exists : ∀ w ch s c, vw.good w → vw.charmOf w s = some c →
    ∃ err, (env.ServiceDeploy w ch s 0 "" [] "").2 = some err ∧
      isErrServiceExists err = true
  relation_exists : ∀ w a b, vw.good w → vw.related w a b →
    ∃ err, (env.AddRelation w a b).2 = some err ∧ isErrRelationExists err = true
  get_charm : ∀ w s c, vw.good w → vw.charmOf w s = some c →
    ∃ e, (env.ServiceGetCharmURL w s).2 = .ok e ∧ env.urlString e = c
  deploy_records : ∀ w ch s, vw.good w → (env.ServiceDeploy w ch s 0 "" [] "").2 = none →
    vw.charmOf (env.ServiceDeploy w ch s 0 "" [] "").1 s = some ch ∧
    ∃ u, env.ParseURL ch = .ok u
  get_records : ∀ w s e, vw.good w → (env.ServiceGetCharmURL w s).2 = .ok e →
    vw.charmOf (env.ServiceGetCharmURL w s).1 s = some (env.urlString e) ∧
    ∃ u, env.ParseURL (env.urlString e) = .ok u
  setCharm_records : ∀ w s id, vw.good w → (env.ServiceSetCharm w s id false).2 = none →
    vw.charmOf (env.ServiceSetCharm w s id false).1 s = some id
  relation_records : ∀ w a b, vw.good w →
    ((env.AddRelation w a b).2 = none ∨
      ∃ err, (env.AddRelation w a b).2 = some err ∧ isErrRelationExists err = true) →
    vw.related (env.AddRelation w a b).1 a b
  setCharm_accepts : ∀ w s id c u, vw.good w → vw.charmOf w s = some c →
    env.ParseURL id = .ok u → vw.pathOf id = vw.pathOf c →
    (env.ServiceSetCharm w s id false).2 = none
  step_resolve : ∀ w charm, vw.good w →
    vw.good (env.resolveCharmStoreEntityURL w charm).1 ∧
    Later env vw w (env.resolveCharmStoreEntityURL w charm).1
  resolve_records : ∀ w charm url repo, vw.good w →
    (env.resolveCharmStoreEntityURL w charm).2 = .ok (url, repo) →
    ∃ u, env.ParseURL (env.urlString url) = .ok u
  step_addCharm : ∀ w url repo u, vw.good w → env.ParseURL (env.urlString url) = .ok u →
    vw.good (env.addCharmViaAPI w url repo).1 ∧
    Later env vw w (env.addCharmViaAPI w url repo).1
  step_deploy : ∀ w ch s, vw.good w →
    vw.good (env.ServiceDeploy w ch s 0 "" [] "").1 ∧
    Later env vw w (env.ServiceDeploy w ch s 0 "" [] "").1
  step_get : ∀ w s, vw.good w →
    vw.good (env.ServiceGetCharmURL w s).1 ∧ Later env vw w (env.ServiceGetCharmURL w s).1
  step_setCharm : ∀ w s id c u, vw.good w → vw.charmOf w s = some c →
    env.ParseURL id = .ok u → vw.pathOf id = vw.pathOf c →
    vw.good (env.ServiceSetCharm w s id false).1 ∧
    Later env vw w (env.ServiceSetCharm w s id false).1
  step_setYAML : ∀ w s y, vw.good w →
    vw.good (env.ServiceSetYAML w s y).1 ∧ Later env vw w (env.ServiceSetYAML w s y).1
  step_addRelation : ∀ w a b, vw.good w →
    vw.good (env.AddRelation w a b).1 ∧ Later env vw w (env.AddRelation w a b).1
  path_parsed : ∀ id u, env.ParseURL id = .ok u →
    env.Path (env.WithRevision u (-1)) = vw.pathOf id
  path_url : ∀ e, env.Path (env.WithRevision e (-1)) = vw.pathOf (env.urlString e)

/-- What makes a change, with result table r, already satisfied in state w of a retaining
plane, and the result table r1 it then leaves. -/
def Satisfied (env : Env σ U R V) (vw : View σ) (r : ResultTable) (w : σ) (c : Change V)
    (r1 : ResultTable) : Prop :=
  match c with
  | .AddCharmChange _ p =>
    ∃ url repo url2, (env.resolveCharmStoreEntityURL w p.Charm).2 = .ok (url, repo) ∧
      env.urlSeries url ≠ "bundle" ∧ (env.addCharmViaAPI w url repo).2 = .ok url2 ∧
      r1 = mapSet r ("resolved-" ++ p.Charm) (env.urlString url2)
  | .AddServiceChange id p =>
    r1 = mapSet r id p.Service ∧
    ∃ cur u, vw.charmOf w p.Service = some cur ∧
      env.ParseURL (mapGet "" r ("resolved-" ++ p.Charm)) = .ok u ∧
      vw.pathOf (mapGet "" r ("resolved-" ++ p.Charm)) = vw.pathOf cur ∧
      (p.Options ≠ [] → ∃ y, env.yamlMarshal p.Service p.Options = .ok y ∧
        (env.ServiceSetYAML w p.Service y).2 = none)
  | .AddRelationChange _ p =>
    r1 = r ∧ ∃ ep1 ep2, resolveRelation p.Endpoint1 r = .ok ep1 ∧
      resolveRelation p.Endpoint2 r = .ok ep2 ∧ vw.related w ep1 ep2
  | .other _ _ => False
  | _ => r1 = r

end Retention

theorem hasPrefix_dollar_iff (s : String) :
    HasPrefix s "$" = true ↔ ∃ rest : String, s = "$" ++ rest := by
  constructor
  · intro h
    rcases s with ⟨l⟩
    cases l with
    | nil => simp [HasPrefix, List.isPrefixOf] at h
    | cons c cs =>
      have hc : c = '$' := by
        have h2 : '$' = c := by simpa [HasPrefix, List.isPrefixOf] using h
        exact h2.symm
      refine ⟨String.mk cs, ?_⟩
      subst hc
      apply String.ext
      simp
  · rintro ⟨rest, rfl⟩
    simp [HasPrefix, List.isPrefixOf]

theorem sliceFrom1_dollar (rest : String) : sliceFrom1 ("$" ++ rest) = rest := by
  apply String.ext
  simp [sliceFrom1]

theorem mapGet_absent {α : Type} (zero : α) (m : GoMap α) (key : String)
    (h : mapHas m key = false) : mapGet zero m key = zero := by
  induction m with
  | nil => rfl
  | cons e m ih =>
    rcases e with ⟨k, v⟩
    by_cases hk : k = key
    · simp [mapHas, hk] at h
    · simp only [mapHas, hk, if_false] at h
      simp [mapGet, hk, ih h]

theorem mapGet_mapSet_same {α : Type} (zero : α) (m : GoMap α) (key : String) (val : α) :
    mapGet zero (mapSet m key val) key = val := by
  induction m with
  | nil => simp [mapSet, mapGet]
  | cons e m ih =>
    rcases e with ⟨k, v⟩
    by_cases hk : k = key
    · simp [mapSet, mapGet, hk]
    · simp [mapSet, mapGet, hk, ih]

theorem mapGet_mapSet_other {α : Type} (zero : α) (m : GoMap α) (key key2 : String) (val : α)
    (h : key ≠ key2) : mapGet zero (mapSet m key val) key2 = mapGet zero m key2 := by
  induction m with
  | nil => simp [mapSet, mapGet, h]
  | cons e m ih =>
    rcases e with ⟨k, v⟩
    by_cases hk : k = key
    · subst hk
      simp [mapSet, mapGet, h]
    · by_cases hk2 : k = key2
      · subst hk2
        simp [mapSet, mapGet, hk]
      · simp [mapSet, mapGet, hk, hk2, ih]

theorem cutColon_none (l : List Char) (h : ':' ∉ l) : cutColon l = none := by
  induction l with
  | nil => rfl
  | cons c cs ih =>
    have hc : c ≠ ':' := fun e => h (by simp [e])
    have hcs : ':' ∉ cs := fun e => h (by simp [e])
    simp [cutColon, hc, ih hcs]

theorem cutColon_first (l r : List Char) (h : ':' ∉ l) :
    cutColon (l ++ ':' :: r) = some (l, r) := by
  induction l with
  | nil => simp [cutColon]
  | cons c cs ih =>
    have hc : c ≠ ':' := fun e => h (by simp [e])
    have hcs : ':' ∉ cs := fun e => h (by simp [e])
    simp [cutColon, hc, ih hcs]

theorem SplitN2_colon (i s : String) (hi : ':' ∉ i.data) :
    SplitN2 ("$" ++ i ++ ":" ++ s) = ("$" ++ i, some s) := by
  have hd : ':' ∉ '$' :: i.data := by
    simp only [List.mem_cons, not_or]
    exact ⟨by decide, hi⟩
  have hdata : ("$" ++ i ++ ":" ++ s).data = ('$' :: i.data) ++ ':' :: s.data := by
    simp [String.data_append]
  have hmk : String.mk ('$' :: i.data) = "$" ++ i := by
    apply String.ext; simp
  unfold SplitN2
  rw [hdata, cutColon_first _ _ hd]
  simp only [hmk]

theorem SplitN2_bare (i : String) (hi : ':' ∉ i.data) :
    SplitN2 ("$" ++ i) = ("$" ++ i, none) := by
  have hd : ':' ∉ '$' :: i.data := by
    simp only [List.mem_cons, not_or]
    exact ⟨by decide, hi⟩
  have hdata : ("$" ++ i).data = '$' :: i.data := by
    simp [String.data_append]
  unfold SplitN2
  rw [hdata, cutColon_none _ hd]

theorem resolve_dollar (rest : String) (table : ResultTable) :
    resolve ("$" ++ rest) table = .ok (mapGet "" table rest) := by
  have hp : HasPrefix ("$" ++ rest) "$" = true := (hasPrefix_dollar_iff _).2 ⟨rest, rfl⟩
  simp [resolve, hp, sliceFrom1_dollar]

/-! ## Lemmas on the handlers and the loop -/

section HandlerLemmas

variable {σ U R V : Type}

@[simp] theorem called_calls (h : bundleHandler σ U R) (c : Call U R) (w : σ) :
    (h.called c w).calls = h.calls ++ [c] := rfl

@[simp] theorem called_client (h : bundleHandler σ U R) (c : Call U R) (w : σ) :
    (h.called c w).client = w := rfl

@[simp] theorem called_results (h : bundleHandler σ U R) (c : Call U R) (w : σ) :
    (h.called c w).results = h.results := rfl

@[simp] theorem called_log (h : bundleHandler σ U R) (c : Call U R) (w : σ) :
    (h.called c w).log = h.log := rfl

@[simp] theorem Infof_calls (h : bundleHandler σ U R) (l : String) :
    (h.Infof l).calls = h.calls := rfl

@[simp] theorem Infof_client (h : bundleHandler σ U R) (l : String) :
    (h.Infof l).client = h.client := rfl

@[simp] theorem Infof_results (h : bundleHandler σ U R) (l : String) :
    (h.Infof l).results = h.results := rfl

@[simp] theorem setResult_calls (h : bundleHandler σ U R) (k v : String) :
    (h.setResult k v).calls = h.calls := rfl

@[simp] theorem setResult_client (h : bundleHandler σ U R) (k v : String) :
    (h.setResult k v).client = h.client := rfl

@[simp] theorem setResult_results (h : bundleHandler σ U R) (k v : String) :
    (h.setResult k v).results = mapSet h.results k v := rfl

theorem Extends.refl (h : bundleHandler σ U R) : Extends h h := ⟨[], by simp⟩

theorem Extends.trans {a b c : bundleHandler σ U R} (h1 : Extends a b) (h2 : Extends b c) :
    Extends a c := by
  rcases h1 with ⟨l1, e1⟩
  rcases h2 with ⟨l2, e2⟩
  exact ⟨l1 ++ l2, by rw [e2, e1, List.append_assoc]⟩

theorem Extends.of_calls {h h1 h2 : bundleHandler σ U R} (e : h2.calls = h1.calls)
    (x : Extends h h1) : Extends h h2 := by
  rcases x with ⟨l, hl⟩
  exact ⟨l, by rw [e, hl]⟩

theorem Extends.called (h : bundleHandler σ U R) (c : Call U R) (w : σ) :
    Extends h (h.called c w) := ⟨[c], rfl⟩

theorem Extends.setResult (h : bundleHandler σ U R) (k v : String) :
    Extends h (h.setResult k v) := ⟨[], by simp⟩

theorem Extends.Infof (h : bundleHandler σ U R) (l : String) :
    Extends h (h.Infof l) := ⟨[], by simp⟩

theorem addCharm_extends (env : Env σ U R V) (h : bundleHandler σ U R) (id : String)
    (p : AddCharmParams) : Extends h (h.addCharm env id p).1 := by
  unfold bundleHandler.addCharm
  split
  · exact Extends.called _ _ _
  · dsimp only
    split
    · exact Extends.called _ _ _
    · split
      · exact (Extends.called _ _ _).trans (Extends.called _ _ _)
      · exact (((Extends.called _ _ _).trans (Extends.called _ _ _)).trans
          (Extends.Infof _ _)).trans (Extends.setResult _ _ _)

theorem upgradeCharm_extends (env : Env σ U R V) (h : bundleHandler σ U R)
    (service id : String) : Extends h (upgradeCharm env h service id).1 := by
  unfold upgradeCharm
  split
  · exact Extends.called _ _ _
  · dsimp only
    split
    · exact (Extends.called _ _ _).trans (Extends.Infof _ _)
    · split
      · exact Extends.called _ _ _
      · split
        · exact Extends.called _ _ _
        · split
          · exact (Extends.called _ _ _).trans (Extends.called _ _ _)
          · exact ((Extends.called _ _ _).trans (Extends.called _ _ _)).trans (Extends.Infof _ _)

theorem upgradeCharm_results (env : Env σ U R V) (h : bundleHandler σ U R)
    (service id : String) : (upgradeCharm env h service id).1.results = h.results := by
  unfold upgradeCharm
  split
  · rfl
  · dsimp only
    split
    · rfl
    · split
      · rfl
      · split
        · rfl
        · split <;> rfl

theorem setServiceOptions_extends (env : Env σ U R V) (h : bundleHandler σ U R)
    (service : String) (options : GoMap V) :
    Extends h (setServiceOptions env h service options).1 := by
  unfold setServiceOptions
  split
  · exact Extends.refl _
  · split
    · exact Extends.called _ _ _
    · exact Extends.called _ _ _

theorem setServiceOptions_results (env : Env σ U R V) (h : bundleHandler σ U R)
    (service : String) (options : GoMap V) :
    (setServiceOptions env h service options).1.results = h.results := by
  unfold setServiceOptions
  repeat' split
  all_goals rfl

theorem deployOrUpgrade_extends (env : Env σ U R V) (h : bundleHandler σ U R)
    (p : AddServiceParams V) : Extends h (deployOrUpgrade env h p).1 := by
  unfold deployOrUpgrade
  dsimp only
  split
  · exact (Extends.called _ _ _).trans (Extends.Infof _ _)
  · split
    · have hu := upgradeCharm_extends env
        (h.called (.ServiceDeploy (mapGet "" h.results ("resolved-" ++ p.Charm)) p.Service
          0 "" [] "") (by assumption)) p.Service (mapGet "" h.results ("resolved-" ++ p.Charm))
      split
      · rename_i heq
        rw [heq] at hu
        exact (Extends.called _ _ _).trans hu
      · rename_i heq
        rw [heq] at hu
        exact (Extends.called _ _ _).trans hu
    · exact Extends.called _ _ _

theorem deployOrUpgrade_results (env : Env σ U R V) (h : bundleHandler σ U R)
    (p : AddServiceParams V) : (deployOrUpgrade env h p).1.results = h.results := by
  unfold deployOrUpgrade
  dsimp only
  split
  · rfl
  · split
    · have hu := upgradeCharm_results env
        (h.called (.ServiceDeploy (mapGet "" h.results ("resolved-" ++ p.Charm)) p.Service
          0 "" [] "") (by assumption)) p.Service (mapGet "" h.results ("resolved-" ++ p.Charm))
      split
      · rename_i heq
        rw [heq] at hu
        exact hu
      · rename_i heq
        rw [heq] at hu
        exact hu
    · rfl

theorem configure_extends (env : Env σ U R V) (h : bundleHandler σ U R)
    (p : AddServiceParams V) : Extends h (configure env h p).1 := by
  unfold configure
  split
  · have hs := setServiceOptions_extends env h p.Service p.Options
    split
    · rename_i heq
      rw [heq] at hs
      exact hs.trans (Extends.Infof _ _)
    · rename_i heq
      rw [heq] at hs
      exact hs
  · exact Extends.refl _

theorem configure_results (env : Env σ U R V) (h : bundleHandler σ U R)
    (p : AddServiceParams V) : (configure env h p).1.results = h.results := by
  unfold configure
  split
  · have hs := setServiceOptions_results env h p.Service p.Options
    split
    · rename_i heq
      rw [heq] at hs
      exact hs
    · rename_i heq
      rw [heq] at hs
      exact hs
  · rfl

theorem newCalls_eq (h h1 : bundleHandler σ U R) (l : List (Call U R))
    (hl : h1.calls = h.calls ++ l) : newCalls h h1 = l := by
  simp [newCalls, hl]

theorem setServiceOptions_no_setCharm (env : Env σ U R V) (h : bundleHandler σ U R)
    (service : String) (options : GoMap V) :
    ∃ l, (setServiceOptions env h service options).1.calls = h.calls ++ l ∧
      l.filter Call.isSetCharm = [] := by
  unfold setServiceOptions
  split
  · exact ⟨[], by simp⟩
  · split
    · exact ⟨[_], rfl, rfl⟩
    · exact ⟨[_], rfl, rfl⟩

theorem configure_no_setCharm (env : Env σ U R V) (h : bundleHandler σ U R)
    (p : AddServiceParams V) :
    ∃ l, (configure env h p).1.calls = h.calls ++ l ∧ l.filter Call.isSetCharm = [] := by
  unfold configure
  split
  · have hs := setServiceOptions_no_setCharm env h p.Service p.Options
    split
    · rename_i heq
      rw [heq] at hs
      exact hs
    · rename_i heq
      rw [heq] at hs
      exact hs
  · exact ⟨[], by simp⟩

theorem configure_no_options (env : Env σ U R V) (h : bundleHandler σ U R)
    (p : AddServiceParams V) (ho : p.Options = []) : configure env h p = (h, .nil) := by
  simp [configure, ho]

theorem configure_calls_of_options (env : Env σ U R V) (h : bundleHandler σ U R)
    (p : AddServiceParams V) (y : String) (ho : p.Options ≠ [])
    (hy : env.yamlMarshal p.Service p.Options = .ok y) :
    (configure env h p).1.calls = h.calls ++ [.ServiceSetYAML p.Service y] := by
  have hlen : p.Options.length > 0 := List.length_pos.2 ho
  unfold configure
  rw [if_pos hlen]
  unfold setServiceOptions
  rw [hy]
  dsimp only
  rcases env.ServiceSetYAML h.client p.Service y with ⟨c, r⟩
  cases r <;> rfl

/-- The calls of addService once its first part has returned nil in state h2. -/
theorem addService_calls_of_deployed (env : Env σ U R V) (h h2 : bundleHandler σ U R)
    (id : String) (p : AddServiceParams V) (hd : deployOrUpgrade env h p = (h2, .nil)) :
    (h.addService env id p).1.calls = (configure env h2 p).1.calls := by
  unfold bundleHandler.addService
  rw [hd]
  dsimp only
  rcases configure env h2 p with ⟨h3, r⟩
  cases r <;> rfl

theorem addService_extends (env : Env σ U R V) (h : bundleHandler σ U R) (id : String)
    (p : AddServiceParams V) : Extends h (h.addService env id p).1 := by
  unfold bundleHandler.addService
  have hd := deployOrUpgrade_extends env h p
  split
  · rename_i h2 heq
    rw [heq] at hd
    have hc := configure_extends env h2 p
    split
    · rename_i heq2
      rw [heq2] at hc
      exact (hd.trans hc).trans (Extends.setResult _ _ _)
    · rename_i heq2
      rw [heq2] at hc
      exact hd.trans hc
  · rename_i heq
    rw [heq] at hd
    exact hd

/-- A handler of addService that does not return nil leaves the results as they were. -/
theorem addService_results_of_not_nil (env : Env σ U R V) (h : bundleHandler σ U R)
    (id : String) (p : AddServiceParams V) (hr : (h.addService env id p).2 ≠ .nil) :
    (h.addService env id p).1.results = h.results := by
  unfold bundleHandler.addService at hr ⊢
  have hd := deployOrUpgrade_results env h p
  rcases hdu : deployOrUpgrade env h p with ⟨h2, r⟩
  rw [hdu] at hd hr
  cases r with
  | nil =>
    dsimp only at hr hd ⊢
    have hc := configure_results env h2 p
    rcases hcf : configure env h2 p with ⟨h3, r3⟩
    rw [hcf] at hc hr
    cases r3 with
    | nil => exact absurd rfl hr
    | err e => exact hc.trans hd
    | panic v => exact hc.trans hd
  | err e => exact hd
  | panic v => exact hd

theorem addRelation_extends (env : Env σ U R V) (h : bundleHandler σ U R) (id : String)
    (p : AddRelationParams) : Extends h (h.addRelation env id p).1 := by
  unfold bundleHandler.addRelation
  split
  · exact Extends.refl _
  · split
    · exact Extends.refl _
    · split
      · exact (Extends.called _ _ _).trans (Extends.Infof _ _)
      · dsimp only
        split
        · exact (Extends.called _ _ _).trans (Extends.Infof _ _)
        · exact Extends.called _ _ _

theorem addRelation_results (env : Env σ U R V) (h : bundleHandler σ U R) (id : String)
    (p : AddRelationParams) : (h.addRelation env id p).1.results = h.results := by
  unfold bundleHandler.addRelation
  split
  · rfl
  · split
    · rfl
    · split
      · rfl
      · dsimp only
        split <;> rfl

theorem addCharm_results_of_not_nil (env : Env σ U R V) (h : bundleHandler σ U R)
    (id : String) (p : AddCharmParams) (hr : (h.addCharm env id p).2 ≠ .nil) :
    (h.addCharm env id p).1.results = h.results := by
  unfold bundleHandler.addCharm at hr ⊢
  split
  · rfl
  · rename_i heq
    simp only [heq] at hr
    dsimp only at hr ⊢
    split
    · rfl
    · rename_i hs
      simp only [hs, if_false] at hr
      split
      · rfl
      · rename_i heq2
        simp only [heq2] at hr
        exact absurd rfl hr

theorem dispatch_extends (env : Env σ U R V) (h h1 : bundleHandler σ U R) (c : Change V)
    (r : Ret) (hd : dispatch env h c = some (h1, r)) : Extends h h1 := by
  cases c with
  | AddCharmChange id p =>
    simp only [dispatch, Option.some.injEq] at hd
    have := addCharm_extends env h id p
    rw [hd] at this; exact this
  | AddMachineChange id p =>
    simp only [dispatch, Option.some.injEq, bundleHandler.addMachine, Prod.mk.injEq] at hd
    rw [← hd.1]; exact Extends.refl _
  | AddRelationChange id p =>
    simp only [dispatch, Option.some.injEq] at hd
    have := addRelation_extends env h id p
    rw [hd] at this; exact this
  | AddServiceChange id p =>
    simp only [dispatch, Option.some.injEq] at hd
    have := addService_extends env h id p
    rw [hd] at this; exact this
  | AddUnitChange id p =>
    simp only [dispatch, Option.some.injEq, bundleHandler.addUnit, Prod.mk.injEq] at hd
    rw [← hd.1]; exact Extends.refl _
  | SetAnnotationsChange id p =>
    simp only [dispatch, Option.some.injEq, bundleHandler.setAnnotations, Prod.mk.injEq] at hd
    rw [← hd.1]; exact Extends.refl _
  | other id t => simp [dispatch] at hd

/-- A handler that returns an error leaves the results as they were. -/
theorem dispatch_err_results (env : Env σ U R V) (h h1 : bundleHandler σ U R) (c : Change V)
    (e : GoError) (hd : dispatch env h c = some (h1, .err e)) : h1.results = h.results := by
  cases c with
  | AddCharmChange id p =>
    simp only [dispatch, Option.some.injEq] at hd
    have := addCharm_results_of_not_nil env h id p (by rw [hd]; simp)
    rw [hd] at this; exact this
  | AddMachineChange id p =>
    simp [dispatch, bundleHandler.addMachine] at hd
  | AddRelationChange id p =>
    simp only [dispatch, Option.some.injEq] at hd
    have := addRelation_results env h id p
    rw [hd] at this; exact this
  | AddServiceChange id p =>
    simp only [dispatch, Option.some.injEq] at hd
    have := addService_results_of_not_nil env h id p (by rw [hd]; simp)
    rw [hd] at this; exact this
  | AddUnitChange id p =>
    simp [dispatch, bundleHandler.addUnit] at hd
  | SetAnnotationsChange id p =>
    simp [dispatch, bundleHandler.setAnnotations] at hd
  | other id t => simp [dispatch] at hd

theorem handlerCalls_spec (env : Env σ U R V) (h h1 : bundleHandler σ U R) (c : Change V)
    (r : Ret) (hd : dispatch env h c = some (h1, r)) :
    h1.calls = h.calls ++ handlerCalls env h c := by
  rcases dispatch_extends env h h1 c r hd with ⟨l, hl⟩
  simp [handlerCalls, hd, hl]

/-- The loop on a sequence whose first part succeeds goes on with the rest from the state
the first part left. -/
theorem deployLoop_append (env : Env σ U R V) (pre rest : List (Change V))
    (h h1 : bundleHandler σ U R) (hpre : deployLoop env h pre = (h1, .nil)) :
    deployLoop env h (pre ++ rest) = deployLoop env h1 rest := by
  induction pre generalizing h with
  | nil =>
    simp only [deployLoop, Prod.mk.injEq, and_true] at hpre
    subst hpre
    rfl
  | cons c cs ih =>
    simp only [List.cons_append, deployLoop] at hpre ⊢
    rcases hd : dispatch env h c with _ | ⟨h2, r⟩
    · simp [hd] at hpre
    · cases r with
      | nil =>
        simp only [hd] at hpre ⊢
        exact ih h2 hpre
      | err e => simp [hd] at hpre
      | panic v => simp [hd] at hpre

theorem deployLoop_succeed (env : Env σ U R V) (cs : List (Change V))
    (h : bundleHandler σ U R) (hs : handlersSucceed env h cs = true) :
    deployLoop env h cs = (applyAll env h cs, .nil) ∧
    (applyAll env h cs).calls = h.calls ++ callsInOrder env h cs := by
  induction cs generalizing h with
  | nil => simp [deployLoop, callsInOrder, applyAll]
  | cons c cs ih =>
    simp only [handlersSucceed] at hs
    rcases hd : dispatch env h c with _ | ⟨h2, r⟩
    · simp [hd] at hs
    · cases r with
      | nil =>
        simp only [hd] at hs
        have := ih h2 hs
        have ha : applyAll env h (c :: cs) = applyAll env h2 cs := by
          simp [applyAll, hd]
        simp only [deployLoop, callsInOrder, hd, ha]
        refine ⟨this.1, ?_⟩
        rw [this.2, handlerCalls_spec env h h2 c .nil hd, List.append_assoc]
      | err e => simp [hd] at hs
      | panic v => simp [hd] at hs

end HandlerLemmas

/-! ## Lemmas on error texts -/

theorem isPrefixOf_append_self (sub b : List Char) : sub.isPrefixOf (sub ++ b) = true := by
  induction sub with
  | nil => simp [List.isPrefixOf]
  | cons c cs ih => simp [List.isPrefixOf, ih]

theorem containsChars_mid (a sub b : List Char) : containsChars sub (a ++ (sub ++ b)) = true := by
  induction a with
  | nil =>
    cases hl : sub ++ b with
    | nil =>
      have : sub = [] := (List.append_eq_nil.1 hl).1
      simp [containsChars, this]
    | cons c cs =>
      have := isPrefixOf_append_self sub b
      rw [hl] at this
      simp [containsChars, this]
  | cons c cs ih =>
    show (sub.isPrefixOf (c :: (cs ++ (sub ++ b))) || containsChars sub (cs ++ (sub ++ b))) = true
    rw [ih, Bool.or_true]

theorem contains_of_eq (s a sub b : String) (h : s = a ++ sub ++ b) : Contains s sub = true := by
  subst h
  simp only [Contains, String.data_append, List.append_assoc]
  exact containsChars_mid _ _ _

/-- An annotation that ends with a text contains it. -/
theorem contains_annotate (err a sub : String) :
    Contains (Annotate err (a ++ sub)) sub = true :=
  contains_of_eq _ a sub (": " ++ err) (by simp [Annotate, String.append_assoc])

theorem contains_end (a sub : String) : Contains (a ++ sub) sub = true :=
  contains_of_eq _ a sub "" (by simp)

section ErrorContext

variable {σ U R V : Type}

theorem addCharm_err_context (env : Env σ U R V) (h : bundleHandler σ U R) (id : String)
    (p : AddCharmParams) (e : GoError) (he : (h.addCharm env id p).2 = .err e) :
    Contains e (env.quote p.Charm) = true := by
  unfold bundleHandler.addCharm at he
  rcases h1 : env.resolveCharmStoreEntityURL h.client p.Charm with ⟨c1, er | ⟨url, repo⟩⟩
  · simp only [h1, Ret.err.injEq] at he
    subst he
    exact contains_annotate _ _ _
  · simp only [h1] at he
    by_cases hs : env.urlSeries url = "bundle"
    · simp only [hs, if_true, Ret.err.injEq] at he
      subst he
      exact contains_end _ _
    · simp only [hs, if_false] at he
      rcases h2 : env.addCharmViaAPI c1 url repo with ⟨c2, er | url2⟩
      · simp only [called_client, h2, Ret.err.injEq] at he
        subst he
        exact contains_annotate _ _ _
      · simp [h2] at he

theorem setServiceOptions_err_context (env : Env σ U R V) (h : bundleHandler σ U R)
    (service : String) (options : GoMap V) (e : GoError)
    (he : (setServiceOptions env h service options).2 = .err e) :
    Contains e (env.quote service) = true := by
  unfold setServiceOptions at he
  rcases h1 : env.yamlMarshal service options with er | y
  · simp only [h1, Ret.err.injEq] at he
    subst he
    exact contains_annotate _ _ _
  · simp only [h1] at he
    rcases h2 : env.ServiceSetYAML h.client service y with ⟨c, _ | er⟩
    · simp [h2] at he
    · simp only [h2, Ret.err.injEq] at he
      subst he
      exact contains_annotate _ _ _

theorem configure_err_context (env : Env σ U R V) (h : bundleHandler σ U R)
    (p : AddServiceParams V) (e : GoError) (he : (configure env h p).2 = .err e) :
    Contains e (env.quote p.Service) = true := by
  unfold configure at he
  by_cases hl : p.Options.length > 0
  · simp only [hl, if_true] at he
    have hs := setServiceOptions_err_context env h p.Service p.Options e
    rcases h1 : setServiceOptions env h p.Service p.Options with ⟨h3, r⟩
    rw [h1] at hs he
    cases r with
    | nil => simp at he
    | err e2 => exact hs he
    | panic v => simp at he
  · simp [hl] at he

theorem deployOrUpgrade_err_context (env : Env σ U R V) (h : bundleHandler σ U R)
    (p : AddServiceParams V) (e : GoError) (he : (deployOrUpgrade env h p).2 = .err e) :
    Contains e (env.quote p.Service) = true := by
  unfold deployOrUpgrade at he
  dsimp only at he
  rcases h1 : env.ServiceDeploy h.client (mapGet "" h.results ("resolved-" ++ p.Charm))
    p.Service 0 "" [] "" with ⟨c1, _ | er⟩
  · simp [h1] at he
  · simp only [h1] at he
    by_cases hx : isErrServiceExists er = true
    · simp only [hx, if_true] at he
      rcases h2 : upgradeCharm env (h.called (.ServiceDeploy
        (mapGet "" h.results ("resolved-" ++ p.Charm)) p.Service 0 "" [] "") c1) p.Service
        (mapGet "" h.results ("resolved-" ++ p.Charm)) with ⟨h3, r⟩
      rw [h2] at he
      cases r with
      | nil => simp at he
      | err e2 =>
        simp only [Ret.err.injEq] at he
        subst he
        exact contains_annotate _ _ _
      | panic v => simp at he
    · simp only [hx, Bool.false_eq_true, if_false, Ret.err.injEq] at he
      subst he
      exact contains_annotate _ _ _

theorem addService_err_context (env : Env σ U R V) (h : bundleHandler σ U R) (id : String)
    (p : AddServiceParams V) (e : GoError) (he : (h.addService env id p).2 = .err e) :
    Contains e (env.quote p.Service) = true := by
  unfold bundleHandler.addService at he
  have hd := deployOrUpgrade_err_context env h p e
  rcases h1 : deployOrUpgrade env h p with ⟨h2, r⟩
  rw [h1] at hd he
  cases r with
  | nil =>
    dsimp only at he
    have hc := configure_err_context env h2 p e
    rcases h3 : configure env h2 p with ⟨h4, r2⟩
    rw [h3] at hc he
    cases r2 with
    | nil => simp at he
    | err e2 => exact hc he
    | panic v => simp at he
  | err e2 => exact hd he
  | panic v => simp at he

theorem addRelation_err_context (env : Env σ U R V) (h : bundleHandler σ U R) (id : String)
    (p : AddRelationParams) (e : GoError) (he : (h.addRelation env id p).2 = .err e) :
    ∃ ep1 ep2, resolveRelation p.Endpoint1 h.results = .ok ep1 ∧
      resolveRelation p.Endpoint2 h.results = .ok ep2 ∧
      Contains e (env.quote ep1) = true ∧ Contains e (env.quote ep2) = true := by
  unfold bundleHandler.addRelation at he
  rcases h1 : resolveRelation p.Endpoint1 h.results with v | ep1
  · simp [h1] at he
  · rcases h2 : resolveRelation p.Endpoint2 h.results with v | ep2
    · simp [h1, h2] at he
    · simp only [h1, h2] at he
      rcases h3 : env.AddRelation h.client ep1 ep2 with ⟨c, _ | er⟩
      · simp [h3] at he
      · simp only [h3] at he
        by_cases hx : isErrRelationExists er = true
        · simp [hx] at he
        · simp only [hx, Bool.false_eq_true, if_false, Ret.err.injEq] at he
          subst he
          refine ⟨ep1, ep2, rfl, rfl, ?_, ?_⟩
          · exact contains_of_eq _ "cannot add relation between " _
              (" and " ++ env.quote ep2 ++ ": " ++ er)
              (by simp [Annotate, String.append_assoc])
          · exact contains_annotate _ _ _

end ErrorContext

theorem containsChars_append_left (sub a l : List Char) (h : containsChars sub l = true) :
    containsChars sub (a ++ l) = true := by
  induction a with
  | nil => exact h
  | cons c cs ih =>
    show (sub.isPrefixOf (c :: (cs ++ l)) || containsChars sub (cs ++ l)) = true
    rw [ih, Bool.or_true]

theorem contains_append_left (a s sub : String) (h : Contains s sub = true) :
    Contains (a ++ s) sub = true := by
  simp only [Contains, String.data_append]
  exact containsChars_append_left _ _ _ h

theorem namesOperand_of_dispatch {σ U R V : Type} (env : Env σ U R V)
    (h h2 : bundleHandler σ U R) (c : Change V) (e : GoError)
    (hd : dispatch env h c = some (h2, .err e)) :
    namesOperand env h c (Annotate e "cannot deploy bundle") := by
  have hshape : Annotate e "cannot deploy bundle" = "cannot deploy bundle: " ++ e := by
    simp [Annotate, String.append_assoc]
  cases c with
  | AddCharmChange id p =>
    simp only [dispatch, Option.some.injEq] at hd
    have := addCharm_err_context env h id p e (by rw [hd])
    rw [hshape]
    exact contains_append_left _ _ _ this
  | AddMachineChange id p => trivial
  | AddRelationChange id p =>
    simp only [dispatch, Option.some.injEq] at hd
    rcases addRelation_err_context env h id p e (by rw [hd]) with ⟨ep1, ep2, h1, h2, c1, c2⟩
    rw [hshape]
    exact ⟨ep1, ep2, h1, h2, contains_append_left _ _ _ c1, contains_append_left _ _ _ c2⟩
  | AddServiceChange id p =>
    simp only [dispatch, Option.some.injEq] at hd
    have := addService_err_context env h id p e (by rw [hd])
    rw [hshape]
    exact contains_append_left _ _ _ this
  | AddUnitChange id p => trivial
  | SetAnnotationsChange id p => trivial
  | other id t => trivial

/-! ## Lemmas for the result table and the classifiers -/

theorem mapHas_mapSet_same {α : Type} (m : GoMap α) (key : String) (val : α) :
    mapHas (mapSet m key val) key = true := by
  induction m with
  | nil => simp [mapSet, mapHas]
  | cons e m ih =>
    rcases e with ⟨k, v⟩
    by_cases hk : k = key
    · simp [mapSet, mapHas, hk]
    · simp [mapSet, mapHas, hk, ih]

theorem mapHas_mapSet_other {α : Type} (m : GoMap α) (key key2 : String) (val : α)
    (h : key ≠ key2) : mapHas (mapSet m key val) key2 = mapHas m key2 := by
  induction m with
  | nil => simp [mapSet, mapHas, h]
  | cons e m ih =>
    rcases e with ⟨k, v⟩
    by_cases hk : k = key
    · subst hk
      simp [mapSet, mapHas, h]
    · by_cases hk2 : k = key2
      · subst hk2
        simp [mapSet, mapHas, hk]
      · simp [mapSet, mapHas, hk, hk2, ih]

section ResultLemmas

variable {σ U R V : Type}

theorem addService_results_of_nil (env : Env σ U R V) (h : bundleHandler σ U R)
    (id : String) (p : AddServiceParams V) (hr : (h.addService env id p).2 = .nil) :
    (h.addService env id p).1.results = mapSet h.results id p.Service := by
  unfold bundleHandler.addService at hr ⊢
  have hd := deployOrUpgrade_results env h p
  rcases hdu : deployOrUpgrade env h p with ⟨h2, r⟩
  rw [hdu] at hd hr
  cases r with
  | nil =>
    dsimp only at hr hd ⊢
    have hc := configure_results env h2 p
    rcases hcf : configure env h2 p with ⟨h3, r3⟩
    rw [hcf] at hc hr
    cases r3 with
    | nil =>
      dsimp only at hc ⊢
      rw [setResult_results, hc, hd]
    | err e => simp at hr
    | panic v => simp at hr
  | err e => simp at hr
  | panic v => simp at hr

theorem deployOrUpgrade_of_deployed (env : Env σ U R V) (h : bundleHandler σ U R)
    (p : AddServiceParams V) (c1 : σ)
    (hdep : env.ServiceDeploy h.client (targetCharm h p) p.Service 0 "" [] "" = (c1, none)) :
    deployOrUpgrade env h p =
      ((h.called (deployCall h p) c1).Infof
        ("service " ++ p.Service ++ " deployed (charm: " ++ targetCharm h p ++ ")"), .nil) := by
  simp [deployOrUpgrade, hdep]

theorem addCharm_records (env : Env σ U R V) (h : bundleHandler σ U R) (id : String)
    (p : AddCharmParams) (hr : (h.addCharm env id p).2 = .nil) :
    ∃ c1 c2 url repo url2,
      env.resolveCharmStoreEntityURL h.client p.Charm = (c1, .ok (url, repo)) ∧
      env.urlSeries url ≠ "bundle" ∧
      env.addCharmViaAPI c1 url repo = (c2, .ok url2) ∧
      (h.addCharm env id p).1.client = c2 ∧
      (h.addCharm env id p).1.results
        = mapSet h.results ("resolved-" ++ p.Charm) (env.urlString url2) := by
  unfold bundleHandler.addCharm at hr ⊢
  rcases h1 : env.resolveCharmStoreEntityURL h.client p.Charm with ⟨c1, er | ⟨url, repo⟩⟩
  · simp [h1] at hr
  · simp only [h1] at hr ⊢
    by_cases hs : env.urlSeries url = "bundle"
    · simp [hs] at hr
    · simp only [hs, if_false] at hr ⊢
      rcases h2 : env.addCharmViaAPI c1 url repo with ⟨c2, er | url2⟩
      · simp [h2] at hr
      · simp only [called_client, h2]
        exact ⟨c1, c2, url, repo, url2, rfl, hs, h2, rfl, rfl⟩

end ResultLemmas

theorem suffix_of_annotated (S M E : List Char) (hc : ':' ∉ S) (hh : ∀ t, S ≠ ' ' :: t)
    (hS : S <:+ M ++ ':' :: ' ' :: E) : S <:+ E := by
  have hE : E <:+ M ++ ':' :: ' ' :: E := ⟨M ++ [':', ' '], by simp⟩
  rcases List.suffix_or_suffix_of_suffix hS hE with h | h
  · exact h
  · rcases h with ⟨u, hu⟩
    rcases hS with ⟨t, ht⟩
    subst hu
    have h1 : t ++ u = M ++ [':', ' '] :=
      List.append_cancel_right
        (show (t ++ u) ++ E = (M ++ [':', ' ']) ++ E by simpa using ht)
    rcases List.eq_nil_or_concat u with hnil | ⟨L, b, hL⟩
    · subst hnil
      simp
    · rw [List.concat_eq_append] at hL
      subst hL
      have h2 : t ++ L ++ [b] = M ++ [':'] ++ [' '] := by simpa using h1
      have h3 := List.append_inj' h2 rfl
      have hb : b = ' ' := by simpa using h3.2
      subst hb
      rcases List.eq_nil_or_concat L with hnil | ⟨L2, b2, hL2⟩
      · subst hnil
        exact absurd rfl (hh E)
      · rw [List.concat_eq_append] at hL2
        subst hL2
        have h4 : t ++ L2 ++ [b2] = M ++ [':'] := by simpa using h3.1
        have h5 := List.append_inj' h4 rfl
        have hb2 : b2 = ':' := by simpa using h5.2
        subst hb2
        exact absurd (by simp) hc

theorem hasSuffix_iff (e suf : String) :
    HasSuffix e suf = true ↔ ∃ pre : String, e = pre ++ suf := by
  unfold HasSuffix
  rw [List.isSuffixOf_iff_suffix]
  constructor
  · rintro ⟨t, ht⟩
    exact ⟨String.mk t, by apply String.ext; simp [ht]⟩
  · rintro ⟨pre, rfl⟩
    exact ⟨pre.data, by simp⟩

theorem hasSuffix_annotate (e msg suf : String) (hc : ':' ∉ suf.data)
    (hh : ∀ t, suf.data ≠ ' ' :: t) :
    HasSuffix (Annotate e msg) suf = HasSuffix e suf := by
  have hdata : (Annotate e msg).data = msg.data ++ ':' :: ' ' :: e.data := by
    simp [Annotate, String.data_append]
  rw [Bool.eq_iff_iff]
  unfold HasSuffix
  rw [List.isSuffixOf_iff_suffix, List.isSuffixOf_iff_suffix, hdata]
  constructor
  · exact suffix_of_annotated _ _ _ hc hh
  · rintro ⟨t, ht⟩
    exact ⟨msg.data ++ ':' :: ' ' :: t, by simp [← ht]⟩

/-! ## Lemmas on the sample control plane -/

/-- The first part of addService when deploy-service answers "service already exists": the
state is the one upgradeCharm leaves, and nil is returned exactly when upgradeCharm returns
nil. -/
theorem deployOrUpgrade_exists {σ U R V : Type} (env : Env σ U R V) (h : bundleHandler σ U R)
    (p : AddServiceParams V) (c1 : σ) (err : GoError) (h2 : bundleHandler σ U R) (r : Ret)
    (hdep : env.ServiceDeploy h.client (targetCharm h p) p.Service 0 "" [] "" = (c1, some err))
    (hex : isErrServiceExists err = true)
    (hup : upgradeCharm env (h.called (deployCall h p) c1) p.Service (targetCharm h p)
      = (h2, r)) :
    (deployOrUpgrade env h p).1 = h2 ∧
    ((deployOrUpgrade env h p).2 = .nil ↔ r = .nil) := by
  cases r <;> simp [deployOrUpgrade, hdep, hex, hup]

section IdLemmas

variable {σ U R V : Type}

/-- An addService that returns an error does so in the same state under any other id. -/
theorem addService_err_any_id (env : Env σ U R V) (h h2 : bundleHandler σ U R)
    (id id2 : String) (p : AddServiceParams V) (e : GoError)
    (ha : h.addService env id p = (h2, .err e)) :
    h.addService env id2 p = (h2, .err e) := by
  unfold bundleHandler.addService at ha ⊢
  rcases hd : deployOrUpgrade env h p with ⟨h3, r⟩
  rw [hd] at ha
  cases r with
  | nil =>
    dsimp only at ha ⊢
    rcases hc : configure env h3 p with ⟨h4, r2⟩
    rw [hc] at ha
    cases r2 with
    | nil => simp at ha
    | err e2 => exact ha
    | panic v => exact ha
  | err e2 => exact ha
  | panic v => exact ha

/-- A change whose handler returns an error gets the same error, in the same state, under
any other id. -/
theorem dispatch_err_withId (env : Env σ U R V) (h h2 : bundleHandler σ U R) (c : Change V)
    (id2 : String) (e : GoError) (hd : dispatch env h c = some (h2, .err e)) :
    dispatch env h (c.withId id2) = some (h2, .err e) := by
  cases c with
  | AddCharmChange id p => exact hd
  | AddMachineChange id p => exact hd
  | AddRelationChange id p => exact hd
  | AddServiceChange id p =>
    simp only [dispatch, Option.some.injEq, Change.withId] at hd ⊢
    exact addService_err_any_id env h h2 id id2 p e hd
  | AddUnitChange id p => exact hd
  | SetAnnotationsChange id p => exact hd
  | other id t => simp [dispatch] at hd

theorem dispatch_none_withId (env : Env σ U R V) (h : bundleHandler σ U R) (c : Change V)
    (id2 : String) (hd : dispatch env h c = none) :
    dispatch env h (c.withId id2) = none ∧ (c.withId id2).typeName = c.typeName := by
  cases c <;> simp [dispatch] at hd
  exact ⟨rfl, rfl⟩

end IdLemmas

/-! ## Lemmas on control planes that retain state -/

section RetentionLemmas

variable {σ U R V : Type}

theorem later_refl (env : Env σ U R V) (vw : View σ) (w : σ) : Later env vw w w :=
  ⟨fun _ c hc => ⟨c, hc, rfl⟩, fun _ _ hr => hr, fun _ _ hy => hy, fun _ => rfl,
    fun _ _ => rfl⟩

theorem later_trans {env : Env σ U R V} {vw : View σ} {a b c : σ}
    (h1 : Later env vw a b) (h2 : Later env vw b c) : Later env vw a c := by
  obtain ⟨a1, a2, a3, a4, a5⟩ := h1
  obtain ⟨b1, b2, b3, b4, b5⟩ := h2
  refine ⟨?_, fun x y hr => b2 x y (a2 x y hr), fun s y hy => b3 s y (a3 s y hy),
    fun ch => (b4 ch).trans (a4 ch), fun u r => (b5 u r).trans (a5 u r)⟩
  intro s c hc
  obtain ⟨c1, hc1, hp1⟩ := a1 s c hc
  obtain ⟨c2, hc2, hp2⟩ := b1 s c1 hc1
  exact ⟨c2, hc2, hp2.trans hp1⟩

theorem satisfied_addCharm (env : Env σ U R V) (vw : View σ) (r r1 : ResultTable) (w : σ)
    (id : String) (p : AddCharmParams) :
    Satisfied env vw r w (.AddCharmChange id p) r1 ↔
      ∃ url repo url2, (env.resolveCharmStoreEntityURL w p.Charm).2 = .ok (url, repo) ∧
        env.urlSeries url ≠ "bundle" ∧ (env.addCharmViaAPI w url repo).2 = .ok url2 ∧
        r1 = mapSet r ("resolved-" ++ p.Charm) (env.urlString url2) := Iff.rfl

theorem satisfied_addService (env : Env σ U R V) (vw : View σ) (r r1 : ResultTable) (w : σ)
    (id : String) (p : AddServiceParams V) :
    Satisfied env vw r w (.AddServiceChange id p) r1 ↔
      (r1 = mapSet r id p.Service ∧
      ∃ cur u, vw.charmOf w p.Service = some cur ∧
        env.ParseURL (mapGet "" r ("resolved-" ++ p.Charm)) = .ok u ∧
        vw.pathOf (mapGet "" r ("resolved-" ++ p.Charm)) = vw.pathOf cur ∧
        (p.Options ≠ [] → ∃ y, env.yamlMarshal p.Service p.Options = .ok y ∧
          (env.ServiceSetYAML w p.Service y).2 = none)) := Iff.rfl

theorem satisfied_addRelation (env : Env σ U R V) (vw : View σ) (r r1 : ResultTable) (w : σ)
    (id : String) (p : AddRelationParams) :
    Satisfied env vw r w (.AddRelationChange id p) r1 ↔
      (r1 = r ∧ ∃ ep1 ep2, resolveRelation p.Endpoint1 r = .ok ep1 ∧
        resolveRelation p.Endpoint2 r = .ok ep2 ∧ vw.related w ep1 ep2) := Iff.rfl

/-- A change that is satisfied in a state is satisfied in every later state. -/
theorem satisfied_later {env : Env σ U R V} {vw : View σ} {r r1 : ResultTable} {w w1 : σ}
    {c : Change V} (hs : Satisfied env vw r w c r1) (hl : Later env vw w w1) :
    Satisfied env vw r w1 c r1 := by
  obtain ⟨l1, l2, l3, l4, l5⟩ := hl
  cases c with
  | AddCharmChange id p =>
    obtain ⟨url, repo, url2, a, b, c, d⟩ := (satisfied_addCharm env vw r r1 w id p).1 hs
    exact (satisfied_addCharm env vw r r1 w1 id p).2
      ⟨url, repo, url2, (l4 _).trans a, b, (l5 _ _).trans c, d⟩
  | AddMachineChange id p => exact hs
  | AddRelationChange id p =>
    obtain ⟨a, ep1, ep2, h1, h2, hr⟩ := (satisfied_addRelation env vw r r1 w id p).1 hs
    exact (satisfied_addRelation env vw r r1 w1 id p).2 ⟨a, ep1, ep2, h1, h2, l2 _ _ hr⟩
  | AddServiceChange id p =>
    obtain ⟨a, cur, u, hc, hp, hb, hy⟩ := (satisfied_addService env vw r r1 w id p).1 hs
    obtain ⟨c1, hc1, hp1⟩ := l1 _ _ hc
    refine (satisfied_addService env vw r r1 w1 id p).2
      ⟨a, c1, u, hc1, hp, hb.trans hp1.symm, fun hne => ?_⟩
    obtain ⟨y, hm, hy2⟩ := hy hne
    exact ⟨y, hm, l3 _ _ hy2⟩
  | AddUnitChange id p => exact hs
  | SetAnnotationsChange id p => exact hs
  | other id t => exact hs

/-- After upgradeCharm on a retaining plane: the plane is in a later state, and when the
function returned nil the service runs the target charm, which parses. -/
theorem upgradeCharm_retaining (env : Env σ U R V) (vw : View σ) (rt : Retaining env vw)
    (h : bundleHandler σ U R) (s id : String) (hg : vw.good h.client) :
    vw.good (upgradeCharm env h s id).1.client ∧
    Later env vw h.client (upgradeCharm env h s id).1.client ∧
    ((upgradeCharm env h s id).2 = .nil →
      vw.charmOf (upgradeCharm env h s id).1.client s = some id ∧
      ∃ u, env.ParseURL id = .ok u) := by
  have hstep := rt.step_get h.client s hg
  have hrec := rt.get_records h.client s
  unfold upgradeCharm
  rcases hget : env.ServiceGetCharmURL h.client s with ⟨c1, err | e⟩
  · rw [hget] at hstep
    exact ⟨hstep.1, hstep.2, fun hn => by simp at hn⟩
  · rw [hget] at hstep hrec
    obtain ⟨hc1, u1, hu1⟩ := hrec e hg rfl
    simp only [called_client]
    by_cases he : env.urlString e = id
    · rw [if_pos he]
      exact ⟨hstep.1, hstep.2, fun _ => ⟨by rw [← he]; exact hc1, u1, by rw [← he]; exact hu1⟩⟩
    · rw [if_neg he]
      rcases hp : env.ParseURL id with err | url
      · exact ⟨hstep.1, hstep.2, fun hn => by simp at hn⟩
      · simp only []
        by_cases hpath : env.Path (env.WithRevision url (-1))
            ≠ env.Path (env.WithRevision e (-1))
        · rw [if_pos hpath]
          exact ⟨hstep.1, hstep.2, fun hn => by simp at hn⟩
        · rw [if_neg hpath]
          have heq : vw.pathOf id = vw.pathOf (env.urlString e) := by
            rw [← rt.path_parsed id url hp, ← rt.path_url e]
            exact not_not.1 hpath
          have hs2 := rt.step_setCharm c1 s id _ url hstep.1 hc1 hp heq
          have hrec2 := rt.setCharm_records c1 s id hstep.1
          rcases hset : env.ServiceSetCharm c1 s id false with ⟨c2, _ | err⟩
          · rw [hset] at hs2 hrec2
            exact ⟨hs2.1, later_trans hstep.2 hs2.2, fun _ => ⟨hrec2 rfl, url, rfl⟩⟩
          · rw [hset] at hs2
            exact ⟨hs2.1, later_trans hstep.2 hs2.2, fun hn => by simp at hn⟩

/-- The upgradeCharm function returns nil on a retaining plane when the service is deployed
and the target charm parses and has the path of the charm the service runs. -/
theorem upgradeCharm_retaining_nil (env : Env σ U R V) (vw : View σ) (rt : Retaining env vw)
    (h : bundleHandler σ U R) (s id cur : String) (u : U) (hg : vw.good h.client)
    (hc : vw.charmOf h.client s = some cur) (hp : env.ParseURL id = .ok u)
    (hb : vw.pathOf id = vw.pathOf cur) :
    (upgradeCharm env h s id).2 = .nil := by
  obtain ⟨e, hge, hue⟩ := rt.get_charm h.client s cur hg hc
  have hstep := rt.step_get h.client s hg
  have hrec := rt.get_records h.client s e hg hge
  unfold upgradeCharm
  rcases hget : env.ServiceGetCharmURL h.client s with ⟨c1, r⟩
  rw [hget] at hge hstep hrec
  simp only [] at hge
  subst hge
  simp only [called_client]
  by_cases he : env.urlString e = id
  · rw [if_pos he]
  · rw [if_neg he, hp]
    simp only []
    have hpath : ¬ (env.Path (env.WithRevision u (-1))
        ≠ env.Path (env.WithRevision e (-1))) := by
      rw [rt.path_parsed id u hp, rt.path_url e, hue, hb]
      exact not_not.2 rfl
    rw [if_neg hpath]
    have hacc := rt.setCharm_accepts c1 s id _ u hstep.1 hrec.1 hp (by rw [hue]; exact hb)
    rcases hset : env.ServiceSetCharm c1 s id false with ⟨c2, r2⟩
    rw [hset] at hacc
    simp only [] at hacc
    subst hacc
    rfl

/-- After the first part of addService on a retaining plane. -/
theorem deployOrUpgrade_retaining (env : Env σ U R V) (vw : View σ) (rt : Retaining env vw)
    (h : bundleHandler σ U R) (p : AddServiceParams V) (hg : vw.good h.client) :
    vw.good (deployOrUpgrade env h p).1.client ∧
    Later env vw h.client (deployOrUpgrade env h p).1.client ∧
    ((deployOrUpgrade env h p).2 = .nil →
      vw.charmOf (deployOrUpgrade env h p).1.client p.Service = some (targetCharm h p) ∧
      ∃ u, env.ParseURL (targetCharm h p) = .ok u) := by
  have hstep := rt.step_deploy h.client (targetCharm h p) p.Service hg
  have hrec := rt.deploy_records h.client (targetCharm h p) p.Service hg
  rcases hdep : env.ServiceDeploy h.client (targetCharm h p) p.Service 0 "" [] ""
    with ⟨c1, _ | err⟩
  · rw [hdep] at hstep hrec
    rw [deployOrUpgrade_of_deployed env h p c1 hdep]
    exact ⟨hstep.1, hstep.2, fun _ => hrec rfl⟩
  · rw [hdep] at hstep
    by_cases hex : isErrServiceExists err = true
    · have hu := upgradeCharm_retaining env vw rt (h.called (deployCall h p) c1) p.Service
        (targetCharm h p) hstep.1
      rcases hup : upgradeCharm env (h.called (deployCall h p) c1) p.Service (targetCharm h p)
        with ⟨h2, r⟩
      rw [hup] at hu
      obtain ⟨e1, e2⟩ := deployOrUpgrade_exists env h p c1 err h2 r hdep hex hup
      rw [e1]
      exact ⟨hu.1, later_trans hstep.2 hu.2.1, fun hn => hu.2.2 (e2.1 hn)⟩
    · have hd : deployOrUpgrade env h p = (h.called (deployCall h p) c1,
          .err (Annotate err ("cannot deploy service " ++ env.quote p.Service))) := by
        simp [deployOrUpgrade, hdep, hex]
      rw [hd]
      exact ⟨hstep.1, hstep.2, fun hn => by simp at hn⟩

/-- The first part of addService returns nil on a retaining plane, through the "service
already exists" answer, when the service is deployed and the target charm parses and has
the path of the charm the service runs. -/
theorem deployOrUpgrade_retaining_nil (env : Env σ U R V) (vw : View σ)
    (rt : Retaining env vw) (h : bundleHandler σ U R) (id : String) (p : AddServiceParams V)
    (cur : String) (u : U) (hg : vw.good h.client)
    (hc : vw.charmOf h.client p.Service = some cur)
    (hp : env.ParseURL (targetCharm h p) = .ok u)
    (hb : vw.pathOf (targetCharm h p) = vw.pathOf cur) :
    (deployOrUpgrade env h p).2 = .nil ∧ viaExists env h (.AddServiceChange id p) = true := by
  obtain ⟨err, hde, hex⟩ := rt.deploy_exists h.client (targetCharm h p) p.Service cur hg hc
  have hstep := rt.step_deploy h.client (targetCharm h p) p.Service hg
  rcases hdep : env.ServiceDeploy h.client (targetCharm h p) p.Service 0 "" [] ""
    with ⟨c1, r⟩
  rw [hdep] at hde hstep
  simp only [] at hde
  subst hde
  obtain ⟨cur1, hc1, hp1⟩ := hstep.2.1 p.Service cur hc
  have hun := upgradeCharm_retaining_nil env vw rt (h.called (deployCall h p) c1) p.Service
    (targetCharm h p) cur1 u hstep.1 hc1 hp (hb.trans hp1.symm)
  rcases hup : upgradeCharm env (h.called (deployCall h p) c1) p.Service (targetCharm h p)
    with ⟨h2, r⟩
  rw [hup] at hun
  simp only [] at hun
  subst hun
  obtain ⟨_, e2⟩ := deployOrUpgrade_exists env h p c1 err h2 .nil hdep hex hup
  refine ⟨e2.2 rfl, ?_⟩
  simp only [viaExists, hdep]
  exact hex

/-- After the second part of addService on a retaining plane. -/
theorem configure_retaining (env : Env σ U R V) (vw : View σ) (rt : Retaining env vw)
    (h : bundleHandler σ U R) (p : AddServiceParams V) (hg : vw.good h.client) :
    vw.good (configure env h p).1.client ∧
    Later env vw h.client (configure env h p).1.client ∧
    ((configure env h p).2 = .nil → p.Options ≠ [] →
      ∃ y, env.yamlMarshal p.Service p.Options = .ok y ∧
        (env.ServiceSetYAML (configure env h p).1.client p.Service y).2 = none) := by
  by_cases ho : p.Options = []
  · rw [configure_no_options env h p ho]
    exact ⟨hg, later_refl env vw _, fun _ hne => absurd ho hne⟩
  · have hlen : p.Options.length > 0 := List.length_pos.2 ho
    unfold configure
    rw [if_pos hlen]
    unfold setServiceOptions
    rcases hm : env.yamlMarshal p.Service p.Options with err | y
    · exact ⟨hg, later_refl env vw _, fun hn => by simp at hn⟩
    · simp only []
      have hstep := rt.step_setYAML h.client p.Service y hg
      rcases hset : env.ServiceSetYAML h.client p.Service y with ⟨c1, _ | err⟩
      · rw [hset] at hstep
        refine ⟨hstep.1, hstep.2, fun _ _ => ⟨y, rfl, ?_⟩⟩
        exact hstep.2.2.2.1 p.Service y (by rw [hset])
      · rw [hset] at hstep
        exact ⟨hstep.1, hstep.2, fun hn => by simp at hn⟩

/-- The second part of addService returns nil when the options, if any, marshal and the
plane accepts them. -/
theorem configure_retaining_nil (env : Env σ U R V) (h : bundleHandler σ U R)
    (p : AddServiceParams V)
    (hy : p.Options ≠ [] → ∃ y, env.yamlMarshal p.Service p.Options = .ok y ∧
      (env.ServiceSetYAML h.client p.Service y).2 = none) :
    (configure env h p).2 = .nil := by
  by_cases ho : p.Options = []
  · rw [configure_no_options env h p ho]
  · obtain ⟨y, hm, hs⟩ := hy ho
    have hlen : p.Options.length > 0 := List.length_pos.2 ho
    unfold configure
    rw [if_pos hlen]
    unfold setServiceOptions
    rw [hm]
    simp only []
    rcases hset : env.ServiceSetYAML h.client p.Service y with ⟨c1, r⟩
    rw [hset] at hs
    simp only [] at hs
    subst hs
    rfl

/-- After addService on a retaining plane: the plane is in a later state, and when the
handler returned nil the change is satisfied in the state it leaves. -/
theorem addService_retaining (env : Env σ U R V) (vw : View σ) (rt : Retaining env vw)
    (h : bundleHandler σ U R) (id : String) (p : AddServiceParams V)
    (hg : vw.good h.client) :
    vw.good (h.addService env id p).1.client ∧
    Later env vw h.client (h.addService env id p).1.client ∧
    ((h.addService env id p).2 = .nil →
      Satisfied env vw h.results (h.addService env id p).1.client (.AddServiceChange id p)
        (h.addService env id p).1.results) := by
  have hres := addService_results_of_nil env h id p
  have hd := deployOrUpgrade_retaining env vw rt h p hg
  unfold bundleHandler.addService at hres ⊢
  rcases hdu : deployOrUpgrade env h p with ⟨h2, r1⟩
  rw [hdu] at hd hres
  cases r1 with
  | nil =>
    have hc := configure_retaining env vw rt h2 p hd.1
    simp only [] at hd hres ⊢
    rcases hcf : configure env h2 p with ⟨h3, r2⟩
    rw [hcf] at hc hres
    cases r2 with
    | nil =>
      refine ⟨hc.1, later_trans hd.2.1 hc.2.1, fun _ => ?_⟩
      obtain ⟨hch, u, hu⟩ := hd.2.2 trivial
      obtain ⟨c3, hc3, hp3⟩ := hc.2.1.1 p.Service _ hch
      exact (satisfied_addService env vw _ _ _ id p).2
        ⟨hres rfl, c3, u, hc3, hu, hp3.symm, hc.2.2 rfl⟩
    | err e => exact ⟨hc.1, later_trans hd.2.1 hc.2.1, fun hn => by simp at hn⟩
    | panic v => exact ⟨hc.1, later_trans hd.2.1 hc.2.1, fun hn => by simp at hn⟩
  | err e => exact ⟨hd.1, hd.2.1, fun hn => by simp at hn⟩
  | panic v => exact ⟨hd.1, hd.2.1, fun hn => by simp at hn⟩

/-- An AddService change that is satisfied on a retaining plane returns nil, through the
"service already exists" branch. -/
theorem addService_retaining_nil (env : Env σ U R V) (vw : View σ) (rt : Retaining env vw)
    (h : bundleHandler σ U R) (id : String) (p : AddServiceParams V) (r1 : ResultTable)
    (hg : vw.good h.client)
    (hs : Satisfied env vw h.results h.client (.AddServiceChange id p) r1) :
    (h.addService env id p).2 = .nil ∧ (h.addService env id p).1.results = r1 ∧
    viaExists env h (.AddServiceChange id p) = true := by
  obtain ⟨hr1, cur, u, hc, hp, hb, hy⟩ := (satisfied_addService env vw _ _ _ id p).1 hs
  obtain ⟨hdn, hv⟩ := deployOrUpgrade_retaining_nil env vw rt h id p cur u hg hc hp hb
  have hd := deployOrUpgrade_retaining env vw rt h p hg
  have hnil : (h.addService env id p).2 = .nil := by
    unfold bundleHandler.addService
    rcases hdu : deployOrUpgrade env h p with ⟨h2, r⟩
    rw [hdu] at hdn hd
    simp only [] at hdn
    subst hdn
    simp only []
    have hcn := configure_retaining_nil env h2 p (fun hne => by
      obtain ⟨y, hm, hys⟩ := hy hne
      exact ⟨y, hm, hd.2.1.2.2.1 p.Service y hys⟩)
    rcases hcf : configure env h2 p with ⟨h3, r3⟩
    rw [hcf] at hcn
    simp only [] at hcn
    subst hcn
    rfl
  exact ⟨hnil, by rw [addService_results_of_nil env h id p hnil, hr1], hv⟩

/-- After addCharm on a retaining plane. -/
theorem addCharm_retaining (env : Env σ U R V) (vw : View σ) (rt : Retaining env vw)
    (h : bundleHandler σ U R) (id : String) (p : AddCharmParams) (hg : vw.good h.client) :
    vw.good (h.addCharm env id p).1.client ∧
    Later env vw h.client (h.addCharm env id p).1.client ∧
    ((h.addCharm env id p).2 = .nil →
      Satisfied env vw h.results (h.addCharm env id p).1.client (.AddCharmChange id p)
        (h.addCharm env id p).1.results) := by
  have hstep := rt.step_resolve h.client p.Charm hg
  have hrec := rt.resolve_records h.client p.Charm
  unfold bundleHandler.addCharm
  rcases h1 : env.resolveCharmStoreEntityURL h.client p.Charm with ⟨c1, er | ⟨url, repo⟩⟩
  · rw [h1] at hstep
    exact ⟨hstep.1, hstep.2, fun hn => by simp at hn⟩
  · rw [h1] at hstep hrec
    obtain ⟨u, hu⟩ := hrec url repo hg rfl
    simp only [called_client]
    by_cases hs : env.urlSeries url = "bundle"
    · rw [if_pos hs]
      exact ⟨hstep.1, hstep.2, fun hn => by simp at hn⟩
    · rw [if_neg hs]
      have hstep2 := rt.step_addCharm c1 url repo u hstep.1 hu
      rcases h2 : env.addCharmViaAPI c1 url repo with ⟨c2, er | url2⟩
      · rw [h2] at hstep2
        exact ⟨hstep2.1, later_trans hstep.2 hstep2.2, fun hn => by simp at hn⟩
      · have hl2 := hstep2.2
        rw [h2] at hstep2
        refine ⟨hstep2.1, later_trans hstep.2 hstep2.2, fun _ => ?_⟩
        refine (satisfied_addCharm env vw _ _ _ id p).2 ⟨url, repo, url2, ?_, hs, ?_, rfl⟩
        · have := (later_trans hstep.2 hstep2.2).2.2.2.1 p.Charm
          rw [h1] at this
          exact this
        · have := hstep2.2.2.2.2.2 url repo
          rw [h2] at this
          exact this

/-- An AddCharm change that is satisfied on a retaining plane returns nil and leaves the
same result table. -/
theorem addCharm_retaining_nil (env : Env σ U R V) (vw : View σ) (rt : Retaining env vw)
    (h : bundleHandler σ U R) (id : String) (p : AddCharmParams) (r1 : ResultTable)
    (hg : vw.good h.client)
    (hs : Satisfied env vw h.results h.client (.AddCharmChange id p) r1) :
    (h.addCharm env id p).2 = .nil ∧ (h.addCharm env id p).1.results = r1 := by
  obtain ⟨url, repo, url2, hres, hser, hadd, hr1⟩ :=
    (satisfied_addCharm env vw _ _ _ id p).1 hs
  have hstep := rt.step_resolve h.client p.Charm hg
  unfold bundleHandler.addCharm
  rcases h1 : env.resolveCharmStoreEntityURL h.client p.Charm with ⟨c1, r⟩
  rw [h1] at hres hstep
  simp only [] at hres
  subst hres
  simp only [called_client, if_neg hser]
  have h2e : (env.addCharmViaAPI c1 url repo).2 = .ok url2 :=
    (hstep.2.2.2.2.2 url repo).trans hadd
  rcases h2 : env.addCharmViaAPI c1 url repo with ⟨c2, r2⟩
  rw [h2] at h2e
  simp only [] at h2e
  subst h2e
  exact ⟨rfl, hr1.symm⟩

/-- After addRelation on a retaining plane. -/
theorem addRelation_retaining (env : Env σ U R V) (vw : View σ) (rt : Retaining env vw)
    (h : bundleHandler σ U R) (id : String) (p : AddRelationParams)
    (hg : vw.good h.client) :
    vw.good (h.addRelation env id p).1.client ∧
    Later env vw h.client (h.addRelation env id p).1.client ∧
    ((h.addRelation env id p).2 = .nil →
      Satisfied env vw h.results (h.addRelation env id p).1.client (.AddRelationChange id p)
        (h.addRelation env id p).1.results) := by
  rcases h1 : resolveRelation p.Endpoint1 h.results with v | ep1
  · have ha : h.addRelation env id p = (h, .panic v) := by
      simp [bundleHandler.addRelation, h1]
    rw [ha]
    exact ⟨hg, later_refl env vw _, fun hn => by simp at hn⟩
  · rcases h2 : resolveRelation p.Endpoint2 h.results with v | ep2
    · have ha : h.addRelation env id p = (h, .panic v) := by
        simp [bundleHandler.addRelation, h1, h2]
      rw [ha]
      exact ⟨hg, later_refl env vw _, fun hn => by simp at hn⟩
    · have hstep := rt.step_addRelation h.client ep1 ep2 hg
      have hrec := rt.relation_records h.client ep1 ep2 hg
      rcases hrel : env.AddRelation h.client ep1 ep2 with ⟨c1, _ | err⟩
      · have ha : h.addRelation env id p =
            ((h.called (.AddRelation ep1 ep2) c1).Infof
              ("related " ++ ep1 ++ " and " ++ ep2), .nil) := by
          simp [bundleHandler.addRelation, h1, h2, hrel]
        rw [hrel] at hstep hrec
        rw [ha]
        exact ⟨hstep.1, hstep.2, fun _ => (satisfied_addRelation env vw _ _ _ id p).2
          ⟨rfl, ep1, ep2, h1, h2, hrec (Or.inl rfl)⟩⟩
      · rw [hrel] at hstep hrec
        by_cases hex : isErrRelationExists err = true
        · have ha : h.addRelation env id p =
              ((h.called (.AddRelation ep1 ep2) c1).Infof
                (ep1 ++ " and " ++ ep2 ++ " are already related"), .nil) := by
            simp [bundleHandler.addRelation, h1, h2, hrel, hex]
          rw [ha]
          exact ⟨hstep.1, hstep.2, fun _ => (satisfied_addRelation env vw _ _ _ id p).2
            ⟨rfl, ep1, ep2, h1, h2, hrec (Or.inr ⟨err, rfl, hex⟩)⟩⟩
        · have ha : h.addRelation env id p =
              (h.called (.AddRelation ep1 ep2) c1,
                .err (Annotate err ("cannot add relation between " ++ env.quote ep1 ++
                  " and " ++ env.quote ep2))) := by
            simp [bundleHandler.addRelation, h1, h2, hrel, hex]
          rw [ha]
          exact ⟨hstep.1, hstep.2, fun hn => by simp at hn⟩

/-- An AddRelation change that is satisfied on a retaining plane returns nil, through the
"relation already exists" branch. -/
theorem addRelation_retaining_nil (env : Env σ U R V) (vw : View σ) (rt : Retaining env vw)
    (h : bundleHandler σ U R) (id : String) (p : AddRelationParams) (r1 : ResultTable)
    (hg : vw.good h.client)
    (hs : Satisfied env vw h.results h.client (.AddRelationChange id p) r1) :
    (h.addRelation env id p).2 = .nil ∧ (h.addRelation env id p).1.results = r1 ∧
    viaExists env h (.AddRelationChange id p) = true := by
  obtain ⟨hr1, ep1, ep2, h1, h2, hrel⟩ := (satisfied_addRelation env vw _ _ _ id p).1 hs
  obtain ⟨err, he, hex⟩ := rt.relation_exists h.client ep1 ep2 hg hrel
  rcases hr : env.AddRelation h.client ep1 ep2 with ⟨c1, r⟩
  rw [hr] at he
  simp only [] at he
  subst he
  have ha : h.addRelation env id p =
      ((h.called (.AddRelation ep1 ep2) c1).Infof
        (ep1 ++ " and " ++ ep2 ++ " are already related"), .nil) := by
    simp [bundleHandler.addRelation, h1, h2, hr, hex]
  refine ⟨by rw [ha], by rw [ha, hr1]; rfl, ?_⟩
  simp only [viaExists, h1, h2, hr]
  exact hex

/-- After a dispatched change on a retaining plane. -/
theorem dispatch_retaining (env : Env σ U R V) (vw : View σ) (rt : Retaining env vw)
    (h h1 : bundleHandler σ U R) (c : Change V) (r : Ret) (hg : vw.good h.client)
    (hd : dispatch env h c = some (h1, r)) :
    vw.good h1.client ∧ Later env vw h.client h1.client ∧
    (r = .nil → Satisfied env vw h.results h1.client c h1.results) := by
  cases c with
  | AddCharmChange id p =>
    simp only [dispatch, Option.some.injEq] at hd
    have ha := addCharm_retaining env vw rt h id p hg
    rw [hd] at ha
    exact ha
  | AddMachineChange id p =>
    simp only [dispatch, bundleHandler.addMachine, Option.some.injEq, Prod.mk.injEq] at hd
    rw [← hd.1]
    exact ⟨hg, later_refl env vw _, fun _ => rfl⟩
  | AddRelationChange id p =>
    simp only [dispatch, Option.some.injEq] at hd
    have ha := addRelation_retaining env vw rt h id p hg
    rw [hd] at ha
    exact ha
  | AddServiceChange id p =>
    simp only [dispatch, Option.some.injEq] at hd
    have ha := addService_retaining env vw rt h id p hg
    rw [hd] at ha
    exact ha
  | AddUnitChange id p =>
    simp only [dispatch, bundleHandler.addUnit, Option.some.injEq, Prod.mk.injEq] at hd
    rw [← hd.1]
    exact ⟨hg, later_refl env vw _, fun _ => rfl⟩
  | SetAnnotationsChange id p =>
    simp only [dispatch, bundleHandler.setAnnotations, Option.some.injEq, Prod.mk.injEq] at hd
    rw [← hd.1]
    exact ⟨hg, later_refl env vw _, fun _ => rfl⟩
  | other id t => simp [dispatch] at hd

/-- A change that is satisfied on a retaining plane returns nil, through its already-exists
branch when it has one, and leaves the result table it is satisfied with. -/
theorem dispatch_retaining_nil (env : Env σ U R V) (vw : View σ) (rt : Retaining env vw)
    (h : bundleHandler σ U R) (c : Change V) (r1 : ResultTable) (hg : vw.good h.client)
    (hs : Satisfied env vw h.results h.client c r1) :
    ∃ h1, dispatch env h c = some (h1, .nil) ∧ h1.results = r1 ∧
      viaExists env h c = true := by
  cases c with
  | AddCharmChange id p =>
    have ha := addCharm_retaining_nil env vw rt h id p r1 hg hs
    exact ⟨(h.addCharm env id p).1, by simp only [dispatch, ← ha.1], ha.2, rfl⟩
  | AddMachineChange id p => exact ⟨h, rfl, hs.symm, rfl⟩
  | AddRelationChange id p =>
    have ha := addRelation_retaining_nil env vw rt h id p r1 hg hs
    exact ⟨(h.addRelation env id p).1, by simp only [dispatch, ← ha.1], ha.2.1, ha.2.2⟩
  | AddServiceChange id p =>
    have ha := addService_retaining_nil env vw rt h id p r1 hg hs
    exact ⟨(h.addService env id p).1, by simp only [dispatch, ← ha.1], ha.2.1, ha.2.2⟩
  | AddUnitChange id p => exact ⟨h, rfl, hs.symm, rfl⟩
  | SetAnnotationsChange id p => exact ⟨h, rfl, hs.symm, rfl⟩
  | other id t => exact absurd hs (fun x => x)

/-- The loop of deployBundle leaves a retaining plane in a later state. -/
theorem deployLoop_retaining (env : Env σ U R V) (vw : View σ) (rt : Retaining env vw)
    (cs : List (Change V)) (h h1 : bundleHandler σ U R) (r : Ret) (hg : vw.good h.client)
    (hl : deployLoop env h cs = (h1, r)) :
    vw.good h1.client ∧ Later env vw h.client h1.client := by
  induction cs generalizing h with
  | nil =>
    simp only [deployLoop, Prod.mk.injEq] at hl
    rw [← hl.1]
    exact ⟨hg, later_refl env vw _⟩
  | cons c cs ih =>
    simp only [deployLoop] at hl
    rcases hd : dispatch env h c with _ | ⟨h2, r2⟩
    · simp only [hd, Prod.mk.injEq] at hl
      rw [← hl.1]
      exact ⟨hg, later_refl env vw _⟩
    · have hp := dispatch_retaining env vw rt h h2 c r2 hg hd
      cases r2 with
      | nil =>
        simp only [hd] at hl
        have := ih h2 hp.1 hl
        exact ⟨this.1, later_trans hp.2.1 this.2⟩
      | err e =>
        simp only [hd, Prod.mk.injEq] at hl
        rw [← hl.1]
        exact ⟨hp.1, hp.2.1⟩
      | panic v =>
        simp only [hd, Prod.mk.injEq] at hl
        rw [← hl.1]
        exact ⟨hp.1, hp.2.1⟩

/-- Replay on a retaining plane: a sequence that ran to the end from state h1, reaching
state hF, runs to the end again from any state with the results of h1 and a plane later
than that of hF, each change through its already-exists branch. -/
theorem replay_retaining_loop (env : Env σ U R V) (vw : View σ) (rt : Retaining env vw)
    (cs : List (Change V)) :
    ∀ h1 hF h2 : bundleHandler σ U R,
      vw.good h1.client → deployLoop env h1 cs = (hF, .nil) →
      h2.results = h1.results → vw.good h2.client → Later env vw hF.client h2.client →
      (deployLoop env h2 cs).2 = .nil ∧
      ∀ pre c post, cs = pre ++ c :: post →
        viaExists env (applyAll env h2 pre) c = true := by
  induction cs with
  | nil =>
    intro h1 hF h2 _ _ _ _ _
    refine ⟨rfl, ?_⟩
    intro pre c post he
    simp at he
  | cons c0 cs ih =>
    intro h1 hF h2 hg1 hl hres hg2 hst
    simp only [deployLoop] at hl
    rcases hd : dispatch env h1 c0 with _ | ⟨h1n, r⟩
    · simp [hd] at hl
    · cases r with
      | err e => simp [hd] at hl
      | panic v => simp [hd] at hl
      | nil =>
        simp only [hd] at hl
        obtain ⟨g1, s1, t1⟩ := dispatch_retaining env vw rt h1 h1n c0 .nil hg1 hd
        have sF := (deployLoop_retaining env vw rt cs h1n hF .nil g1 hl).2
        have hsat : Satisfied env vw h2.results h2.client c0 h1n.results := by
          rw [hres]
          exact satisfied_later (satisfied_later (t1 rfl) sF) hst
        obtain ⟨h2n, hd2, hres2, hv⟩ :=
          dispatch_retaining_nil env vw rt h2 c0 h1n.results hg2 hsat
        obtain ⟨g2, s2, _⟩ := dispatch_retaining env vw rt h2 h2n c0 .nil hg2 hd2
        have := ih h1n hF h2n g1 hl hres2 g2 (later_trans hst s2)
        refine ⟨by simp only [deployLoop, hd2]; exact this.1, ?_⟩
        intro pre c post he
        cases pre with
        | nil =>
          simp only [List.nil_append, List.cons.injEq] at he
          rw [← he.1]
          exact hv
        | cons a pre2 =>
          simp only [List.cons_append, List.cons.injEq] at he
          have ha : applyAll env h2 (a :: pre2) = applyAll env h2n pre2 := by
            rw [← he.1]
            simp [applyAll, hd2]
          rw [ha]
          exact this.2 pre2 c post he.2

end RetentionLemmas

/-! ## The sample plane retains state -/

/-- The plane that lets a configuration be written once only does not retain state:
whatever the view, the empty plane is not one of its good states. -/
theorem onceEnv_not_retaining (vw : View Plane) (rt : Retaining onceEnv vw) :
    ¬ vw.good emptyPlane := by
  intro hg
  have hrun : deployLoop onceEnv (newHandler emptyPlane) sampleBundle
      = ((deployLoop onceEnv (newHandler emptyPlane) sampleBundle).1, .nil) :=
    Prod.ext rfl (by decide)
  have hF := deployLoop_retaining onceEnv vw rt sampleBundle _ _ .nil hg hrun
  have h2 := (replay_retaining_loop onceEnv vw rt sampleBundle _ _
    (newHandler (deployLoop onceEnv (newHandler emptyPlane) sampleBundle).1.client)
    hg hrun rfl hF.1 (later_refl _ _ _)).1
  revert h2
  decide

/-- The sample plane does not retain state from a state that holds a charm reference which
does not parse: whatever the view, the plane loosePlane is not one of its good states. -/
theorem loosePlane_not_retaining (vw : View Plane) (rt : Retaining planeEnv vw) :
    ¬ vw.good loosePlane := by
  intro hg
  have hrun : deployLoop planeEnv (newHandler loosePlane) twiceBundle
      = ((deployLoop planeEnv (newHandler loosePlane) twiceBundle).1, .nil) :=
    Prod.ext rfl (by decide)
  have hF := deployLoop_retaining planeEnv vw rt twiceBundle _ _ .nil hg hrun
  have h2 := (replay_retaining_loop planeEnv vw rt twiceBundle _ _
    (newHandler (deployLoop planeEnv (newHandler loosePlane) twiceBundle).1.client)
    hg hrun rfl hF.1 (later_refl _ _ _)).1
  revert h2
  decide

/-! ## Theorems -/

/-- C1: resolve follows its reference definition.  A token that begins with "$" yields the
table entry of the rest of the token, which is the empty string when the table has no such
key, and never panics; a token that does not begin with "$" (the empty token included)
panics instead of returning a value. -/
theorem resolve_reference (token : String) (table : ResultTable) :
    (∀ rest : String, token = "$" ++ rest →
        resolve token table = .ok (mapGet "" table rest) ∧
        (mapHas table rest = false → resolve token table = .ok "")) ∧
    ((¬ ∃ rest : String, token = "$" ++ rest) → resolve token table = .error resolvePanic) ∧
    resolve "" table = .error resolvePanic := by
  refine ⟨?_, ?_, ?_⟩
  · intro rest h
    have hp : HasPrefix token "$" = true := (hasPrefix_dollar_iff token).2 ⟨rest, h⟩
    have h1 : resolve token table = .ok (mapGet "" table rest) := by
      subst h
      exact resolve_dollar rest table
    refine ⟨h1, ?_⟩
    intro habs
    rw [h1, mapGet_absent "" table rest habs]
  · intro h
    have hp : HasPrefix token "$" = false := by
      cases hb : HasPrefix token "$"
      · rfl
      · exact absurd ((hasPrefix_dollar_iff token).1 hb) h
    simp [resolve, hp]
  · rfl

/-- Witness of C1: the token "$addCharm-0" in a table holding that key, a token whose key is
absent, and a token without the "$" sign. -/
theorem resolve_reference_witness :
    resolve "$addCharm-0" [("addCharm-0", "cs:trusty/mysql-10")] = .ok "cs:trusty/mysql-10" ∧
    resolve "$deploy-7" [("addCharm-0", "cs:trusty/mysql-10")] = .ok "" ∧
    resolve "deploy-7" [("deploy-7", "mysql")] = .error resolvePanic :=
  ⟨((resolve_reference "$addCharm-0" [("addCharm-0", "cs:trusty/mysql-10")]).1
      "addCharm-0" (by decide)).1,
   ((resolve_reference "$deploy-7" [("addCharm-0", "cs:trusty/mysql-10")]).1
      "deploy-7" (by decide)).2 (by decide),
   (resolve_reference "deploy-7" [("deploy-7", "mysql")]).2.1 (by
      rw [← hasPrefix_dollar_iff]; decide)⟩

/-- C2: for a change id i without a colon, resolveRelation of "$i:s" is the result recorded
for i, a colon, and the suffix s unchanged (colons in s included), and resolveRelation of
"$i" is the result recorded for i with nothing appended. -/
theorem resolveRelation_suffix (i s : String) (r : ResultTable) (hi : ':' ∉ i.data) :
    resolveRelation ("$" ++ i ++ ":" ++ s) r = .ok (mapGet "" r i ++ ":" ++ s) ∧
    resolveRelation ("$" ++ i) r = .ok (mapGet "" r i) := by
  have hres : resolve ("$" ++ i) r = .ok (mapGet "" r i) := resolve_dollar i r
  constructor
  · unfold resolveRelation
    rw [SplitN2_colon i s hi]
    simp only [hres]
  · unfold resolveRelation
    rw [SplitN2_bare i hi]
    simp only [hres]

/-- Witness of C2: the endpoint "$deploy-1:db" where change "deploy-1" produced "wordpress". -/
theorem resolveRelation_suffix_witness :
    ':' ∉ "deploy-1".data ∧
    resolveRelation ("$" ++ "deploy-1" ++ ":" ++ "db") [("deploy-1", "wordpress")]
      = .ok (mapGet "" [("deploy-1", "wordpress")] "deploy-1" ++ ":" ++ "db") ∧
    resolveRelation "$deploy-1:db" [("deploy-1", "wordpress")] = .ok "wordpress:db" :=
  ⟨by decide,
   (resolveRelation_suffix "deploy-1" "db" [("deploy-1", "wordpress")] (by decide)).1,
   by decide⟩



section Engine

variable {σ U R V : Type}

/-- C3, the code at the failing input: the AddCharm change "addCharm-0" for charm
"cs:trusty/mysql", which resolves to "cs:trusty/mysql-10", succeeds, but the reference is
recorded under the key "resolved-cs:trusty/mysql"; the table has no entry for the change id
and resolve of "$addCharm-0" gives the empty string. -/
theorem addCharm_records_under_charm_key :
    (deployBundle planeEnv none [.AddCharmChange "addCharm-0" ⟨"cs:trusty/mysql"⟩]
      emptyPlane).2 = .nil ∧
    (deployBundle planeEnv none [.AddCharmChange "addCharm-0" ⟨"cs:trusty/mysql"⟩]
      emptyPlane).1.results = [("resolved-cs:trusty/mysql", "cs:trusty/mysql-10")] ∧
    mapHas (deployBundle planeEnv none [.AddCharmChange "addCharm-0" ⟨"cs:trusty/mysql"⟩]
      emptyPlane).1.results "addCharm-0" = false ∧
    resolve "$addCharm-0" (deployBundle planeEnv none
      [.AddCharmChange "addCharm-0" ⟨"cs:trusty/mysql"⟩] emptyPlane).1.results = .ok "" ∧
    resolve "$addCharm-0" (deployBundle planeEnv none
      [.AddCharmChange "addCharm-0" ⟨"cs:trusty/mysql"⟩] emptyPlane).1.results
        ≠ .ok "cs:trusty/mysql-10" := by
  decide

/-- C4: when the handler of every change succeeds, deployBundle returns nil in the state
reached by running the handlers of the changes one after the other in the order of the
input, once each, and the calls it made are the calls of those handlers in that order, each
handler run on the state its predecessor left: no change is reordered, skipped or run
twice. -/
theorem deployBundle_in_order (env : Env σ U R V) (changes : List (Change V)) (client : σ)
    (hs : handlersSucceed env (newHandler client) changes = true) :
    deployBundle env none changes client
      = (applyAll env (newHandler client) changes, .nil) ∧
    (deployBundle env none changes client).1.calls
      = callsInOrder env (newHandler client) changes := by
  have := deployLoop_succeed env changes (newHandler client) hs
  refine ⟨by simpa [deployBundle] using this.1, ?_⟩
  simp only [deployBundle, this.1]
  simpa [newHandler] using this.2

/-- Witness of C4: the sample bundle on an empty control plane. -/
theorem deployBundle_in_order_witness :
    handlersSucceed planeEnv (newHandler emptyPlane) sampleBundle = true ∧
    deployBundle planeEnv none sampleBundle emptyPlane
      = (applyAll planeEnv (newHandler emptyPlane) sampleBundle, .nil) ∧
    (deployBundle planeEnv none sampleBundle emptyPlane).1.calls
      = callsInOrder planeEnv (newHandler emptyPlane) sampleBundle :=
  ⟨by decide, deployBundle_in_order planeEnv sampleBundle emptyPlane (by decide)⟩

/-- C5: when the changes before position k succeed (h1 is the state they leave when applied
on their own) and the handler of change k returns an error, deployBundle returns that error
annotated, in the state the failing handler left, whatever changes follow: none of them is
dispatched.  The results are those of the changes before k and the calls are theirs,
followed by the calls of the failing handler: nothing is rolled back. -/
theorem deployBundle_stops_at_error (env : Env σ U R V) (client : σ)
    (pre post : List (Change V)) (c : Change V) (h1 h2 : bundleHandler σ U R) (e : GoError)
    (hpre : deployBundle env none pre client = (h1, .nil))
    (hc : dispatch env h1 c = some (h2, .err e)) :
    deployBundle env none (pre ++ c :: post) client
      = (h2, .err (Annotate e "cannot deploy bundle")) ∧
    h2.results = h1.results ∧
    h2.calls = h1.calls ++ handlerCalls env h1 c := by
  refine ⟨?_, dispatch_err_results env h1 h2 c e hc, handlerCalls_spec env h1 h2 c _ hc⟩
  simp only [deployBundle] at hpre ⊢
  rw [deployLoop_append env pre (c :: post) _ h1 hpre]
  simp [deployLoop, hc]

/-- Witness of C5: the third of five changes fails; the calls are those of the first two
changes and the failed call of the third, and the last two changes make none. -/
theorem deployBundle_stops_at_error_witness :
    (deployBundle planeEnv none (twoChanges ++ failingChange :: lastChanges) emptyPlane
      = (afterFailure, .err (Annotate
          "cannot resolve URL \"cs:trusty/ghost\": charm not found: cs:trusty/ghost"
          "cannot deploy bundle")) ∧
      afterFailure.results = afterTwo.results ∧
      afterFailure.calls = afterTwo.calls ++ handlerCalls planeEnv afterTwo failingChange) ∧
    afterFailure.calls =
      [.resolveCharmStoreEntityURL "cs:trusty/mysql", .addCharmViaAPI "cs:trusty/mysql-10" (),
       .ServiceDeploy "cs:trusty/mysql-10" "mysql" 0 "" [] "",
       .resolveCharmStoreEntityURL "cs:trusty/ghost"] :=
  ⟨deployBundle_stops_at_error planeEnv emptyPlane twoChanges lastChanges failingChange
    afterTwo afterFailure
    "cannot resolve URL \"cs:trusty/ghost\": charm not found: cs:trusty/ghost"
    (by decide) (by decide), by decide⟩

/-- C6: when the changes before a change of unknown type succeed (h1 is the state they
leave), deployBundle applies them, returns the error "unknown change type" at the unknown
change, and stops in the state h1: the changes after it are not dispatched and make no
call. -/
theorem deployBundle_unknown_change (env : Env σ U R V) (client : σ)
    (pre post : List (Change V)) (id typeName : String) (h1 : bundleHandler σ U R)
    (hpre : deployBundle env none pre client = (h1, .nil)) :
    deployBundle env none (pre ++ .other id typeName :: post) client
      = (h1, .err ("unknown change type: " ++ typeName)) := by
  simp only [deployBundle] at hpre ⊢
  rw [deployLoop_append env pre (.other id typeName :: post) _ h1 hpre]
  simp [deployLoop, dispatch, Change.typeName]

/-- Witness of C6: a charm, then a change of unknown type, then a service; the run stops
with the calls of the first change only. -/
theorem deployBundle_unknown_change_witness :
    deployBundle planeEnv none
        ([.AddCharmChange "addCharm-0" ⟨"cs:trusty/mysql"⟩] ++
          .other "scale-1" "*bundlechanges.ScaleChange" ::
          [.AddServiceChange "deploy-2" ⟨"cs:trusty/mysql", "mysql", []⟩]) emptyPlane
      = ((deployBundle planeEnv none [.AddCharmChange "addCharm-0" ⟨"cs:trusty/mysql"⟩]
            emptyPlane).1,
          .err ("unknown change type: " ++ "*bundlechanges.ScaleChange")) ∧
    (deployBundle planeEnv none [.AddCharmChange "addCharm-0" ⟨"cs:trusty/mysql"⟩]
        emptyPlane).1.calls =
      [.resolveCharmStoreEntityURL "cs:trusty/mysql",
       .addCharmViaAPI "cs:trusty/mysql-10" ()] :=
  ⟨deployBundle_unknown_change planeEnv emptyPlane
    [.AddCharmChange "addCharm-0" ⟨"cs:trusty/mysql"⟩]
    [.AddServiceChange "deploy-2" ⟨"cs:trusty/mysql", "mysql", []⟩]
    "scale-1" "*bundlechanges.ScaleChange"
    (deployBundle planeEnv none [.AddCharmChange "addCharm-0" ⟨"cs:trusty/mysql"⟩]
      emptyPlane).1 (by decide), by decide⟩

/-- C7: an AddService change whose deploy-service call reports "service already exists",
where the existing charm reference and the target reference of the change have different
paths once the revisions are dropped (so that they are different references): the handler
returns the incompatibility error, the run stops with it, and the calls of the change are
the deploy-service call and the get-service-charm-url query only, so neither
set-service-charm-url nor set-service-config is called, whatever the options. -/
theorem addService_incompatible (env : Env σ U R V) (h : bundleHandler σ U R) (id : String)
    (p : AddServiceParams V) (rest : List (Change V)) (c1 c2 : σ) (err : GoError) (e t : U)
    (hdep : env.ServiceDeploy h.client (targetCharm h p) p.Service 0 "" [] "" = (c1, some err))
    (hex : isErrServiceExists err = true)
    (hget : env.ServiceGetCharmURL c1 p.Service = (c2, .ok e))
    (hparse : env.ParseURL (targetCharm h p) = .ok t)
    (hne : env.urlString e ≠ targetCharm h p)
    (hpath : env.Path (env.WithRevision t (-1)) ≠ env.Path (env.WithRevision e (-1))) :
    h.addService env id p =
      (queried h p c1 c2,
        .err (Annotate
          ("bundle charm " ++ env.quote (targetCharm h p) ++
            " is incompatible with existing charm " ++ env.quote (env.urlString e))
          ("cannot upgrade service " ++ env.quote p.Service))) ∧
    (h.addService env id p).1.calls =
      h.calls ++ [deployCall h p, .ServiceGetCharmURL p.Service] ∧
    (newCalls h (h.addService env id p).1).filter
      (fun c => c.isSetCharm || c.isSetYAML) = [] ∧
    (h.addService env id p).1.results = h.results ∧
    deployLoop env h (.AddServiceChange id p :: rest) =
      ((h.addService env id p).1,
        .err (Annotate (Annotate
          ("bundle charm " ++ env.quote (targetCharm h p) ++
            " is incompatible with existing charm " ++ env.quote (env.urlString e))
          ("cannot upgrade service " ++ env.quote p.Service)) "cannot deploy bundle")) := by
  have hu : upgradeCharm env (h.called (deployCall h p) c1) p.Service (targetCharm h p) =
      (queried h p c1 c2,
        .err ("bundle charm " ++ env.quote (targetCharm h p) ++
            " is incompatible with existing charm " ++ env.quote (env.urlString e))) := by
    simp [upgradeCharm, hget, hne, hparse, hpath]
  have hd : deployOrUpgrade env h p =
      (queried h p c1 c2,
        .err (Annotate
          ("bundle charm " ++ env.quote (targetCharm h p) ++
            " is incompatible with existing charm " ++ env.quote (env.urlString e))
          ("cannot upgrade service " ++ env.quote p.Service))) := by
    simp [deployOrUpgrade, hdep, hex, hu]
  have ha : h.addService env id p =
      (queried h p c1 c2,
        .err (Annotate
          ("bundle charm " ++ env.quote (targetCharm h p) ++
            " is incompatible with existing charm " ++ env.quote (env.urlString e))
          ("cannot upgrade service " ++ env.quote p.Service))) := by
    simp [bundleHandler.addService, hd]
  refine ⟨ha, ?_, ?_, ?_, ?_⟩
  · rw [ha]; simp
  · rw [ha, newCalls_eq h _ [deployCall h p, .ServiceGetCharmURL p.Service] (by simp)]
    rfl
  · rw [ha]; simp
  · simp [deployLoop, dispatch, ha]

/-- Witness of C7: the service "blog" runs "cs:trusty/wordpress-3" and the change deploys
"blog" from "cs:trusty/mediawiki-1", with options. -/
theorem addService_incompatible_witness :
    ((blogHandler "cs:trusty/mediawiki" "cs:trusty/mediawiki-1" []).addService planeEnv
        "deploy-1" ⟨"cs:trusty/mediawiki", "blog", [("title", "My blog")]⟩).2 =
      .err ("cannot upgrade service \"blog\": bundle charm \"cs:trusty/mediawiki-1\"" ++
        " is incompatible with existing charm \"cs:trusty/wordpress-3\"") ∧
    ((blogHandler "cs:trusty/mediawiki" "cs:trusty/mediawiki-1" []).addService planeEnv
        "deploy-1" ⟨"cs:trusty/mediawiki", "blog", [("title", "My blog")]⟩).1.calls =
      [] ++ [.ServiceDeploy "cs:trusty/mediawiki-1" "blog" 0 "" [] "",
       .ServiceGetCharmURL "blog"] :=
  ⟨by decide,
   (addService_incompatible planeEnv (blogHandler "cs:trusty/mediawiki" "cs:trusty/mediawiki-1" [])
    "deploy-1" ⟨"cs:trusty/mediawiki", "blog", [("title", "My blog")]⟩ []
    blogPlane blogPlane "cannot add service \"blog\": service already exists"
    "cs:trusty/wordpress-3" "cs:trusty/mediawiki-1"
    (by decide) (by decide) (by decide) (by decide) (by decide) (by decide)).2.1⟩

/-- C8 as stated fails: the service "blog" runs "cs:trusty/wordpress-3", the change deploys
"blog" from "cs:trusty/wordpress-5" with an option, the set-service-charm-url call succeeds,
and then set-service-config fails: the handler returns an error and records nothing under
the id of the change. -/
theorem addService_upgrade_counterexample :
    planeEnv.ServiceDeploy (blogHandler "cs:trusty/wordpress" "cs:trusty/wordpress-5"
        ["blog"]).client "cs:trusty/wordpress-5" "blog" 0 "" [] ""
      = ({ blogPlane with frozen := ["blog"] },
          some "cannot add service \"blog\": service already exists") ∧
    isErrServiceExists "cannot add service \"blog\": service already exists" = true ∧
    planeEnv.ServiceGetCharmURL { blogPlane with frozen := ["blog"] } "blog"
      = ({ blogPlane with frozen := ["blog"] }, .ok "cs:trusty/wordpress-3") ∧
    planeEnv.Path (planeEnv.WithRevision "cs:trusty/wordpress-5" (-1))
      = planeEnv.Path (planeEnv.WithRevision "cs:trusty/wordpress-3" (-1)) ∧
    (planeEnv.ServiceSetCharm { blogPlane with frozen := ["blog"] } "blog"
      "cs:trusty/wordpress-5" false).2 = none ∧
    ((blogHandler "cs:trusty/wordpress" "cs:trusty/wordpress-5" ["blog"]).addService planeEnv
        "deploy-1" ⟨"cs:trusty/wordpress", "blog", [("title", "My blog")]⟩).2
      = .err "cannot set options for service \"blog\": configuration of \"blog\" is frozen" ∧
    mapHas ((blogHandler "cs:trusty/wordpress" "cs:trusty/wordpress-5" ["blog"]).addService
        planeEnv "deploy-1" ⟨"cs:trusty/wordpress", "blog", [("title", "My blog")]⟩).1.results
      "deploy-1" = false ∧
    mapGet "" ((blogHandler "cs:trusty/wordpress" "cs:trusty/wordpress-5" ["blog"]).addService
        planeEnv "deploy-1" ⟨"cs:trusty/wordpress", "blog", [("title", "My blog")]⟩).1.results
      "deploy-1" ≠ "blog" := by
  decide

/-- C8, amended: an AddService change whose deploy-service call reports "service already
exists", where the existing charm reference differs from the target reference and has the
same path once the revisions are dropped: the handler issues exactly one
set-service-charm-url call, with the service, the target reference and forceUnits false;
and when that call succeeds and the options of the change, if any, are then applied without
error, the handler returns nil and records the service name under the id of the change. -/
theorem addService_upgrade (env : Env σ U R V) (h : bundleHandler σ U R) (id : String)
    (p : AddServiceParams V) (c1 c2 : σ) (err : GoError) (e t : U)
    (hdep : env.ServiceDeploy h.client (targetCharm h p) p.Service 0 "" [] "" = (c1, some err))
    (hex : isErrServiceExists err = true)
    (hget : env.ServiceGetCharmURL c1 p.Service = (c2, .ok e))
    (hparse : env.ParseURL (targetCharm h p) = .ok t)
    (hne : env.urlString e ≠ targetCharm h p)
    (hpath : env.Path (env.WithRevision t (-1)) = env.Path (env.WithRevision e (-1))) :
    (newCalls h (h.addService env id p).1).filter Call.isSetCharm
      = [.ServiceSetCharm p.Service (targetCharm h p) false] ∧
    ((env.ServiceSetCharm c2 p.Service (targetCharm h p) false).2 = none →
      (configure env (upgraded env h p c1 c2 e) p).2 = .nil →
        h.addService env id p
          = ((configure env (upgraded env h p c1 c2 e) p).1.setResult id p.Service, .nil) ∧
        mapGet "" (h.addService env id p).1.results id = p.Service) := by
  rcases hset : env.ServiceSetCharm c2 p.Service (targetCharm h p) false with ⟨c3, r⟩
  cases r with
  | some er =>
    have hu : upgradeCharm env (h.called (deployCall h p) c1) p.Service (targetCharm h p) =
        ((queried h p c1 c2).called (.ServiceSetCharm p.Service (targetCharm h p) false) c3,
          .err (Annotate er ("cannot upgrade charm to " ++ env.quote (targetCharm h p)))) := by
      simp [upgradeCharm, hget, hne, hparse, hpath, hset]
    have hd : deployOrUpgrade env h p =
        ((queried h p c1 c2).called (.ServiceSetCharm p.Service (targetCharm h p) false) c3,
          .err (Annotate (Annotate er ("cannot upgrade charm to " ++ env.quote (targetCharm h p)))
            ("cannot upgrade service " ++ env.quote p.Service))) := by
      simp [deployOrUpgrade, hdep, hex, hu]
    have ha : h.addService env id p =
        ((queried h p c1 c2).called (.ServiceSetCharm p.Service (targetCharm h p) false) c3,
          .err (Annotate (Annotate er ("cannot upgrade charm to " ++ env.quote (targetCharm h p)))
            ("cannot upgrade service " ++ env.quote p.Service))) := by
      simp [bundleHandler.addService, hd]
    refine ⟨?_, ?_⟩
    · rw [ha, newCalls_eq h _ [deployCall h p, .ServiceGetCharmURL p.Service,
        .ServiceSetCharm p.Service (targetCharm h p) false] (by simp)]
      rfl
    · intro hn; simp at hn
  | none =>
    have hu : upgradeCharm env (h.called (deployCall h p) c1) p.Service (targetCharm h p) =
        (upgraded env h p c1 c2 e, .nil) := by
      simp [upgradeCharm, hget, hne, hparse, hpath, hset, upgraded]
    have hd : deployOrUpgrade env h p = (upgraded env h p c1 c2 e, .nil) := by
      simp [deployOrUpgrade, hdep, hex, hu]
    refine ⟨?_, ?_⟩
    · rcases configure_no_setCharm env (upgraded env h p c1 c2 e) p with ⟨l, hl, hf⟩
      rw [newCalls_eq h _ ([deployCall h p, .ServiceGetCharmURL p.Service,
        .ServiceSetCharm p.Service (targetCharm h p) false] ++ l)
        (by rw [addService_calls_of_deployed env h _ id p hd, hl]; simp)]
      rw [List.filter_append, hf]
      rfl
    · intro _ hcf
      have ha : h.addService env id p
          = ((configure env (upgraded env h p c1 c2 e) p).1.setResult id p.Service, .nil) := by
        rcases hc : configure env (upgraded env h p c1 c2 e) p with ⟨h3, r3⟩
        rw [hc] at hcf
        simp only at hcf
        subst hcf
        simp [bundleHandler.addService, hd, hc]
      refine ⟨ha, ?_⟩
      rw [ha]
      simp [mapGet_mapSet_same]

/-- Witness of C8, amended: "blog" runs "cs:trusty/wordpress-3", the change deploys it from
"cs:trusty/wordpress-5" with an option that is accepted. -/
theorem addService_upgrade_witness :
    (newCalls (blogHandler "cs:trusty/wordpress" "cs:trusty/wordpress-5" [])
      ((blogHandler "cs:trusty/wordpress" "cs:trusty/wordpress-5" []).addService planeEnv
        "deploy-1" ⟨"cs:trusty/wordpress", "blog", [("title", "My blog")]⟩).1).filter
        Call.isSetCharm
      = [.ServiceSetCharm "blog" "cs:trusty/wordpress-5" false] ∧
    mapGet "" ((blogHandler "cs:trusty/wordpress" "cs:trusty/wordpress-5" []).addService
      planeEnv "deploy-1" ⟨"cs:trusty/wordpress", "blog", [("title", "My blog")]⟩).1.results
      "deploy-1" = "blog" :=
  ⟨(addService_upgrade planeEnv (blogHandler "cs:trusty/wordpress" "cs:trusty/wordpress-5" [])
      "deploy-1" ⟨"cs:trusty/wordpress", "blog", [("title", "My blog")]⟩
      blogPlane blogPlane "cannot add service \"blog\": service already exists"
      "cs:trusty/wordpress-3" "cs:trusty/wordpress-5"
      (by decide) (by decide) (by decide) (by decide) (by decide) (by decide)).1,
   ((addService_upgrade planeEnv (blogHandler "cs:trusty/wordpress" "cs:trusty/wordpress-5" [])
      "deploy-1" ⟨"cs:trusty/wordpress", "blog", [("title", "My blog")]⟩
      blogPlane blogPlane "cannot add service \"blog\": service already exists"
      "cs:trusty/wordpress-3" "cs:trusty/wordpress-5"
      (by decide) (by decide) (by decide) (by decide) (by decide) (by decide)).2
        (by decide) (by decide)).2⟩

/-- C9 as stated fails: the service "blog" runs "cs:trusty/wordpress-3", which is exactly
the charm the change deploys, and the change has an option: after the
get-service-charm-url query the handler issues a set-service-config call. -/
theorem addService_reuse_counterexample :
    planeEnv.ServiceDeploy (blogHandler "cs:trusty/wordpress" "cs:trusty/wordpress-3"
        []).client "cs:trusty/wordpress-3" "blog" 0 "" [] ""
      = (blogPlane, some "cannot add service \"blog\": service already exists") ∧
    isErrServiceExists "cannot add service \"blog\": service already exists" = true ∧
    planeEnv.ServiceGetCharmURL blogPlane "blog" = (blogPlane, .ok "cs:trusty/wordpress-3") ∧
    targetCharm (blogHandler "cs:trusty/wordpress" "cs:trusty/wordpress-3" [])
        (⟨"cs:trusty/wordpress", "blog", [("title", "My blog")]⟩ : AddServiceParams String)
      = planeEnv.urlString "cs:trusty/wordpress-3" ∧
    ((blogHandler "cs:trusty/wordpress" "cs:trusty/wordpress-3" []).addService planeEnv
        "deploy-1" ⟨"cs:trusty/wordpress", "blog", [("title", "My blog")]⟩).1.calls
      = [.ServiceDeploy "cs:trusty/wordpress-3" "blog" 0 "" [] "",
         .ServiceGetCharmURL "blog",
         .ServiceSetYAML "blog" "blog:\n  title: My blog\n"] ∧
    (newCalls (blogHandler "cs:trusty/wordpress" "cs:trusty/wordpress-3" [])
      ((blogHandler "cs:trusty/wordpress" "cs:trusty/wordpress-3" []).addService planeEnv
        "deploy-1" ⟨"cs:trusty/wordpress", "blog", [("title", "My blog")]⟩).1).filter
        Call.isSetYAML ≠ [] := by
  decide

/-- C9, amended: an AddService change whose deploy-service call reports "service already
exists" and whose target charm reference is exactly the current reference of the existing
service: the service is reused (upgradeCharm returns nil) and no set-service-charm-url call
is issued for the change, whatever its options; when the change has no options, no call
follows the get-service-charm-url query and the handler returns nil, recording the service
name under the id of the change; when it has options (that marshal to a text), exactly one
call follows the query, a set-service-config call with that text. -/
theorem addService_reuse (env : Env σ U R V) (h : bundleHandler σ U R) (id : String)
    (p : AddServiceParams V) (c1 c2 : σ) (err : GoError) (e : U)
    (hdep : env.ServiceDeploy h.client (targetCharm h p) p.Service 0 "" [] "" = (c1, some err))
    (hex : isErrServiceExists err = true)
    (hget : env.ServiceGetCharmURL c1 p.Service = (c2, .ok e))
    (heq : env.urlString e = targetCharm h p) :
    upgradeCharm env (h.called (deployCall h p) c1) p.Service (targetCharm h p)
      = (reused h p c1 c2, .nil) ∧
    (newCalls h (h.addService env id p).1).filter Call.isSetCharm = [] ∧
    (p.Options = [] →
      h.addService env id p = ((reused h p c1 c2).setResult id p.Service, .nil) ∧
      newCalls h (h.addService env id p).1
        = [deployCall h p, .ServiceGetCharmURL p.Service]) ∧
    (∀ y : String, p.Options ≠ [] → env.yamlMarshal p.Service p.Options = .ok y →
      newCalls h (h.addService env id p).1
        = [deployCall h p, .ServiceGetCharmURL p.Service, .ServiceSetYAML p.Service y]) := by
  have hu : upgradeCharm env (h.called (deployCall h p) c1) p.Service (targetCharm h p)
      = (reused h p c1 c2, .nil) := by
    simp [upgradeCharm, hget, heq, reused]
  have hd : deployOrUpgrade env h p = (reused h p c1 c2, .nil) := by
    simp [deployOrUpgrade, hdep, hex, hu]
  have hcalls := addService_calls_of_deployed env h _ id p hd
  refine ⟨hu, ?_, ?_, ?_⟩
  · rcases configure_no_setCharm env (reused h p c1 c2) p with ⟨l, hl, hf⟩
    rw [newCalls_eq h _ ([deployCall h p, .ServiceGetCharmURL p.Service] ++ l)
      (by rw [hcalls, hl]; simp)]
    rw [List.filter_append, hf]
    rfl
  · intro ho
    have hc := configure_no_options env (reused h p c1 c2) p ho
    refine ⟨by simp [bundleHandler.addService, hd, hc], ?_⟩
    exact newCalls_eq h _ _ (by rw [hcalls, hc]; simp)
  · intro y ho hy
    exact newCalls_eq h _ _
      (by rw [hcalls, configure_calls_of_options env _ p y ho hy]; simp)

/-- Witness of C9, amended: "blog" runs "cs:trusty/wordpress-3" and the change deploys it
from that very charm, without options. -/
theorem addService_reuse_witness :
    (blogHandler "cs:trusty/wordpress" "cs:trusty/wordpress-3" []).addService planeEnv
        "deploy-1" ⟨"cs:trusty/wordpress", "blog", []⟩
      = ((reused (blogHandler "cs:trusty/wordpress" "cs:trusty/wordpress-3" [])
          (⟨"cs:trusty/wordpress", "blog", []⟩ : AddServiceParams String)
          blogPlane blogPlane).setResult "deploy-1" "blog", .nil) ∧
    newCalls (blogHandler "cs:trusty/wordpress" "cs:trusty/wordpress-3" [])
      ((blogHandler "cs:trusty/wordpress" "cs:trusty/wordpress-3" []).addService planeEnv
        "deploy-1" ⟨"cs:trusty/wordpress", "blog", []⟩).1
      = [deployCall (blogHandler "cs:trusty/wordpress" "cs:trusty/wordpress-3" [])
          (⟨"cs:trusty/wordpress", "blog", []⟩ : AddServiceParams String),
         .ServiceGetCharmURL "blog"] :=
  (addService_reuse planeEnv (blogHandler "cs:trusty/wordpress" "cs:trusty/wordpress-3" [])
    "deploy-1" ⟨"cs:trusty/wordpress", "blog", []⟩ blogPlane blogPlane
    "cannot add service \"blog\": service already exists" "cs:trusty/wordpress-3"
    (by decide) (by decide) (by decide) (by decide)).2.2.1 rfl

/-- C10: an AddRelation change whose endpoints resolve makes exactly one call, the
add-relation call, and what the handler does is decided by the answer to that call: when the
call returns no error the handler returns nil; when it returns "relation already exists"
the handler returns nil as well, with no further call; when it returns any other error the
handler returns that error, annotated.  So the handler fails (does not return nil) if and
only if the call returns an error that is not "relation already exists".  An endpoint that
does not resolve makes resolve panic before any call, in the state as it was.  On every
path the handler makes at most one call and leaves the result table as it was. -/
theorem addRelation_contract (env : Env σ U R V) (h : bundleHandler σ U R) (id : String)
    (p : AddRelationParams) :
    (∀ ep1 ep2, resolveRelation p.Endpoint1 h.results = .ok ep1 →
        resolveRelation p.Endpoint2 h.results = .ok ep2 →
        ((env.AddRelation h.client ep1 ep2).2 = none →
          h.addRelation env id p =
            ((h.called (.AddRelation ep1 ep2) (env.AddRelation h.client ep1 ep2).1).Infof
              ("related " ++ ep1 ++ " and " ++ ep2), .nil)) ∧
        (∀ err, (env.AddRelation h.client ep1 ep2).2 = some err →
          isErrRelationExists err = true →
          h.addRelation env id p =
            ((h.called (.AddRelation ep1 ep2) (env.AddRelation h.client ep1 ep2).1).Infof
              (ep1 ++ " and " ++ ep2 ++ " are already related"), .nil)) ∧
        (∀ err, (env.AddRelation h.client ep1 ep2).2 = some err →
          isErrRelationExists err = false →
          h.addRelation env id p =
            (h.called (.AddRelation ep1 ep2) (env.AddRelation h.client ep1 ep2).1,
              .err (Annotate err ("cannot add relation between " ++ env.quote ep1 ++ " and "
                ++ env.quote ep2)))) ∧
        ((h.addRelation env id p).2 ≠ .nil ↔
          ∃ err, (env.AddRelation h.client ep1 ep2).2 = some err ∧
            isErrRelationExists err = false) ∧
        newCalls h (h.addRelation env id p).1 = [.AddRelation ep1 ep2]) ∧
    (∀ v, resolveRelation p.Endpoint1 h.results = .error v →
        h.addRelation env id p = (h, .panic v)) ∧
    (∀ ep1 v, resolveRelation p.Endpoint1 h.results = .ok ep1 →
        resolveRelation p.Endpoint2 h.results = .error v →
        h.addRelation env id p = (h, .panic v)) ∧
    ((∃ msg, (h.addRelation env id p).2 = .err msg) ↔
      ∃ ep1 ep2 err, resolveRelation p.Endpoint1 h.results = .ok ep1 ∧
        resolveRelation p.Endpoint2 h.results = .ok ep2 ∧
        (env.AddRelation h.client ep1 ep2).2 = some err ∧ isErrRelationExists err = false) ∧
    (newCalls h (h.addRelation env id p).1).length ≤ 1 ∧
    (h.addRelation env id p).1.results = h.results := by
  refine ⟨?_, ?_, ?_, ?_, ?_, addRelation_results env h id p⟩
  · intro ep1 ep2 h1 h2
    rcases hr : env.AddRelation h.client ep1 ep2 with ⟨c, r⟩
    cases r with
    | none =>
      have ha : h.addRelation env id p =
          ((h.called (.AddRelation ep1 ep2) c).Infof ("related " ++ ep1 ++ " and " ++ ep2),
            .nil) := by
        simp [bundleHandler.addRelation, h1, h2, hr]
      refine ⟨fun _ => ha, fun err he => by simp at he, fun err he => by simp at he, ?_, ?_⟩
      · rw [ha]
        simp
      · rw [ha]
        exact newCalls_eq h _ _ (by simp)
    | some err =>
      cases hx : isErrRelationExists err with
      | true =>
        have ha : h.addRelation env id p =
            ((h.called (.AddRelation ep1 ep2) c).Infof
              (ep1 ++ " and " ++ ep2 ++ " are already related"), .nil) := by
          simp [bundleHandler.addRelation, h1, h2, hr, hx]
        refine ⟨fun hn => by simp at hn, ?_, ?_, ?_, ?_⟩
        · intro e2 he _
          exact ha
        · intro e2 he hf
          simp only [Option.some.injEq] at he
          subst he
          rw [hx] at hf
          cases hf
        · rw [ha]
          simp only [ne_eq, not_true_eq_false, Option.some.injEq, false_iff, not_exists,
            not_and]
          intro e2 he
          subst he
          simp [hx]
        · rw [ha]
          exact newCalls_eq h _ _ (by simp)
      | false =>
        have ha : h.addRelation env id p =
            (h.called (.AddRelation ep1 ep2) c,
              .err (Annotate err ("cannot add relation between " ++ env.quote ep1 ++ " and "
                ++ env.quote ep2))) := by
          simp [bundleHandler.addRelation, h1, h2, hr, hx]
        refine ⟨fun hn => by simp at hn, ?_, ?_, ?_, ?_⟩
        · intro e2 he ht
          simp only [Option.some.injEq] at he
          subst he
          rw [hx] at ht
          cases ht
        · intro e2 he _
          simp only [Option.some.injEq] at he
          subst he
          exact ha
        · rw [ha]
          simp only [ne_eq, reduceCtorEq, not_false_eq_true, Option.some.injEq, true_iff]
          exact ⟨err, rfl, hx⟩
        · rw [ha]
          exact newCalls_eq h _ _ (by simp)
  · intro v h1
    simp [bundleHandler.addRelation, h1]
  · intro ep1 v h1 h2
    simp [bundleHandler.addRelation, h1, h2]
  · unfold bundleHandler.addRelation
    rcases h1 : resolveRelation p.Endpoint1 h.results with v | ep1
    · simp
    · rcases h2 : resolveRelation p.Endpoint2 h.results with v | ep2
      · simp
      · rcases hr : env.AddRelation h.client ep1 ep2 with ⟨c, r⟩
        cases r with
        | none => simp [hr]
        | some err =>
          cases hx : isErrRelationExists err <;> simp [hr, hx]
  · unfold bundleHandler.addRelation
    rcases resolveRelation p.Endpoint1 h.results with v | ep1
    · simp [newCalls]
    · rcases resolveRelation p.Endpoint2 h.results with v | ep2
      · simp [newCalls]
      · dsimp only
        rcases env.AddRelation h.client ep1 ep2 with ⟨c, r⟩
        cases r with
        | none => simp [newCalls]
        | some err => cases hx : isErrRelationExists err <;> simp [newCalls, hx]

/-- Witness of C10: on a plane where "blog:db" and "mysql:db" are related already, the
change that relates them again returns nil after one add-relation call; on a plane where
the two services are deployed and not yet related, the change returns nil after
establishing the relation. -/
theorem addRelation_contract_witness :
    (relatedHandler.addRelation planeEnv "addRelation-4"
        ⟨"$deploy-3:db", "$deploy-1:db"⟩)
      = ((relatedHandler.called (.AddRelation "blog:db" "mysql:db")
            (planeEnv.AddRelation relatedHandler.client "blog:db" "mysql:db").1).Infof
            ("blog:db" ++ " and " ++ "mysql:db" ++ " are already related"), .nil) ∧
    (unrelatedHandler.addRelation planeEnv "addRelation-4"
        ⟨"$deploy-3:db", "$deploy-1:db"⟩)
      = ((unrelatedHandler.called (.AddRelation "blog:db" "mysql:db")
            (planeEnv.AddRelation unrelatedHandler.client "blog:db" "mysql:db").1).Infof
            ("related " ++ "blog:db" ++ " and " ++ "mysql:db"), .nil) ∧
    (relatedHandler.addRelation planeEnv "addRelation-4"
        ⟨"$deploy-3:db", "$deploy-1:db"⟩).1.results = relatedHandler.results :=
  ⟨((addRelation_contract planeEnv relatedHandler "addRelation-4"
      ⟨"$deploy-3:db", "$deploy-1:db"⟩).1 "blog:db" "mysql:db"
      (by decide) (by decide)).2.1
      "cannot add relation \"blog:db mysql:db\": relation already exists"
      (by decide) (by decide),
   ((addRelation_contract planeEnv unrelatedHandler "addRelation-4"
      ⟨"$deploy-3:db", "$deploy-1:db"⟩).1 "blog:db" "mysql:db"
      (by decide) (by decide)).1 (by decide),
   (addRelation_contract planeEnv relatedHandler "addRelation-4"
      ⟨"$deploy-3:db", "$deploy-1:db"⟩).2.2.2.2.2⟩

end Engine


section LaterClaims

variable {σ U R V : Type}

/-- C11 as stated fails: the AddRelation change "addRelation-0" fails and the error that
deployBundle returns contains neither the id of the change nor its kind; and the error for
the change "scale-1" of unknown type does not contain the id of the change. -/
theorem deployBundle_error_counterexample :
    (deployBundle planeEnv none lonelyRelation emptyPlane).2 =
      .err ("cannot deploy bundle: cannot add relation between \":db\" and \":db\": " ++
        "service not found") ∧
    Contains ("cannot deploy bundle: cannot add relation between \":db\" and \":db\": " ++
        "service not found") "addRelation-0" = false ∧
    Contains ("cannot deploy bundle: cannot add relation between \":db\" and \":db\": " ++
        "service not found") "AddRelation" = false ∧
    Contains ("cannot deploy bundle: cannot add relation between \":db\" and \":db\": " ++
        "service not found") "addRelation" = false ∧
    (deployBundle planeEnv none strangeBundle emptyPlane).2 =
      .err "unknown change type: *bundlechanges.ScaleChange" ∧
    Contains "unknown change type: *bundlechanges.ScaleChange" "scale-1" = false := by
  decide

/-- C11, amended: when the changes before a change succeed (h1 is the state they leave) and
that change makes deployBundle abort, the error returned is, for a change of unknown type,
"unknown change type: " followed by the Go type of the change (which it so contains), and,
for a handler error, "cannot deploy bundle: " followed by the text of the handler error;
that text quotes the operand of the failed operation: the charm of an AddCharm change, the
service of an AddService change, the resolved endpoints of an AddRelation change.  The id
of the change takes no part in the text: the same change under any other id makes
deployBundle return the same error. -/
theorem deployBundle_error_context (env : Env σ U R V) (client : σ)
    (pre post : List (Change V)) (c : Change V) (h1 : bundleHandler σ U R)
    (hpre : deployBundle env none pre client = (h1, .nil)) :
    (dispatch env h1 c = none →
      (deployBundle env none (pre ++ c :: post) client).2
        = .err ("unknown change type: " ++ c.typeName) ∧
      Contains ("unknown change type: " ++ c.typeName) c.typeName = true ∧
      ∀ id2 : String, (deployBundle env none (pre ++ c.withId id2 :: post) client).2
        = .err ("unknown change type: " ++ c.typeName)) ∧
    (∀ h2 e, dispatch env h1 c = some (h2, .err e) →
      (deployBundle env none (pre ++ c :: post) client).2
        = .err ("cannot deploy bundle: " ++ e) ∧
      namesOperand env h1 c ("cannot deploy bundle: " ++ e) ∧
      ∀ id2 : String, (deployBundle env none (pre ++ c.withId id2 :: post) client).2
        = .err ("cannot deploy bundle: " ++ e)) := by
  have hloop : ∀ c2 : Change V, deployBundle env none (pre ++ c2 :: post) client
      = deployLoop env h1 (c2 :: post) := by
    intro c2
    simp only [deployBundle] at hpre ⊢
    exact deployLoop_append env pre (c2 :: post) _ h1 hpre
  have hshape : ∀ e : String, Annotate e "cannot deploy bundle" = "cannot deploy bundle: " ++ e := by
    intro e
    simp [Annotate, String.append_assoc]
  refine ⟨?_, ?_⟩
  · intro hd
    refine ⟨by rw [hloop]; simp [deployLoop, hd], contains_end _ _, ?_⟩
    intro id2
    rcases dispatch_none_withId env h1 c id2 hd with ⟨hd2, ht⟩
    rw [hloop]
    simp [deployLoop, hd2, ht]
  · intro h2 e hd
    refine ⟨by rw [hloop]; simp [deployLoop, hd, hshape], ?_, ?_⟩
    · rw [← hshape]
      exact namesOperand_of_dispatch env h1 h2 c e hd
    · intro id2
      rw [hloop]
      simp [deployLoop, dispatch_err_withId env h1 h2 c id2 e hd, hshape]

/-- Witness of C11, amended: the relation that cannot be added; the error quotes the two
resolved endpoints and is the same under the id "other-7". -/
theorem deployBundle_error_context_witness :
    (deployBundle planeEnv none ([] ++ .AddRelationChange "addRelation-0"
        ⟨"$deploy-1:db", "$deploy-2:db"⟩ :: []) emptyPlane).2
      = .err ("cannot deploy bundle: " ++
          "cannot add relation between \":db\" and \":db\": service not found") ∧
    namesOperand planeEnv (newHandler emptyPlane)
      (.AddRelationChange "addRelation-0" ⟨"$deploy-1:db", "$deploy-2:db"⟩)
      ("cannot deploy bundle: " ++
          "cannot add relation between \":db\" and \":db\": service not found") ∧
    (deployBundle planeEnv none ([] ++ (Change.AddRelationChange "addRelation-0"
        ⟨"$deploy-1:db", "$deploy-2:db"⟩).withId "other-7" :: []) emptyPlane).2
      = .err ("cannot deploy bundle: " ++
          "cannot add relation between \":db\" and \":db\": service not found") :=
  ⟨((deployBundle_error_context planeEnv emptyPlane [] []
      (.AddRelationChange "addRelation-0" ⟨"$deploy-1:db", "$deploy-2:db"⟩)
      (newHandler emptyPlane) (by decide)).2
      ((newHandler emptyPlane).called (.AddRelation ":db" ":db") emptyPlane)
      "cannot add relation between \":db\" and \":db\": service not found" (by decide)).1,
   ((deployBundle_error_context planeEnv emptyPlane [] []
      (.AddRelationChange "addRelation-0" ⟨"$deploy-1:db", "$deploy-2:db"⟩)
      (newHandler emptyPlane) (by decide)).2
      ((newHandler emptyPlane).called (.AddRelation ":db" ":db") emptyPlane)
      "cannot add relation between \":db\" and \":db\": service not found" (by decide)).2.1,
   ((deployBundle_error_context planeEnv emptyPlane [] []
      (.AddRelationChange "addRelation-0" ⟨"$deploy-1:db", "$deploy-2:db"⟩)
      (newHandler emptyPlane) (by decide)).2
      ((newHandler emptyPlane).called (.AddRelation ":db" ":db") emptyPlane)
      "cannot add relation between \":db\" and \":db\": service not found" (by decide)).2.2
      "other-7"⟩

/-- C13: an AddService change with id i and service s, on any result table: when the
handler returns nil, the table afterwards is the table before with the entry i set to s,
so that i maps to s and every other key is as before; when the handler does not return nil,
at whatever step it stopped, the table is exactly the table before. -/
theorem addService_result_table (env : Env σ U R V) (h : bundleHandler σ U R) (id : String)
    (p : AddServiceParams V) :
    ((h.addService env id p).2 = .nil →
      (h.addService env id p).1.results = mapSet h.results id p.Service ∧
      mapGet "" (h.addService env id p).1.results id = p.Service ∧
      mapHas (h.addService env id p).1.results id = true ∧
      ∀ k, k ≠ id →
        mapGet "" (h.addService env id p).1.results k = mapGet "" h.results k ∧
        mapHas (h.addService env id p).1.results k = mapHas h.results k) ∧
    ((h.addService env id p).2 ≠ .nil →
      (h.addService env id p).1.results = h.results) := by
  refine ⟨?_, addService_results_of_not_nil env h id p⟩
  intro hr
  have hres := addService_results_of_nil env h id p hr
  refine ⟨hres, ?_, ?_, ?_⟩
  · rw [hres, mapGet_mapSet_same]
  · rw [hres, mapHas_mapSet_same]
  · intro k hk
    rw [hres]
    exact ⟨mapGet_mapSet_other "" _ id k _ (fun e => hk e.symm),
      mapHas_mapSet_other _ id k _ (fun e => hk e.symm)⟩

/-- Witness of C13: a fresh deploy of "mysql" records "deploy-1", and a deploy that fails
on an incompatible charm leaves the table as it was. -/
theorem addService_result_table_witness :
    (mysqlHandler.addService planeEnv "deploy-1" ⟨"cs:trusty/mysql", "mysql", []⟩).1.results
      = mapSet mysqlHandler.results "deploy-1" "mysql" ∧
    ((blogHandler "cs:trusty/mediawiki" "cs:trusty/mediawiki-1" []).addService planeEnv
        "deploy-1" ⟨"cs:trusty/mediawiki", "blog", []⟩).1.results
      = (blogHandler "cs:trusty/mediawiki" "cs:trusty/mediawiki-1" []).results :=
  ⟨((addService_result_table planeEnv mysqlHandler "deploy-1"
      ⟨"cs:trusty/mysql", "mysql", []⟩).1 (by decide)).1,
   (addService_result_table planeEnv
      (blogHandler "cs:trusty/mediawiki" "cs:trusty/mediawiki-1" []) "deploy-1"
      ⟨"cs:trusty/mediawiki", "blog", []⟩).2 (by decide)⟩

/-- C14: an AddService change with service s, charm c and options o whose deploy-service
call succeeds.  The charm reference of that call is the one the AddCharm handler records
for c (the text of the URL that adding the charm returned); the call has service s, unit
count 0, empty config, empty constraints and empty placement.  The calls of the handler are
exactly that call, followed by no call when o is empty, and by exactly one
set-service-config call for s, carrying the YAML text y that yaml.Marshal gives for the
options, when o is not empty. -/
theorem addService_calls (env : Env σ U R V) (h : bundleHandler σ U R) (id : String)
    (p : AddServiceParams V) (c1 : σ)
    (hdep : env.ServiceDeploy h.client (targetCharm h p) p.Service 0 "" [] "" = (c1, none)) :
    deployCall h p = .ServiceDeploy (mapGet "" h.results ("resolved-" ++ p.Charm))
      p.Service 0 "" [] "" ∧
    (∀ (h0 : bundleHandler σ U R) (id0 : String),
      (h0.addCharm env id0 ⟨p.Charm⟩).2 = .nil →
      ∃ c0 c2 url repo url2,
        env.resolveCharmStoreEntityURL h0.client p.Charm = (c0, .ok (url, repo)) ∧
        env.addCharmViaAPI c0 url repo = (c2, .ok url2) ∧
        targetCharm (h0.addCharm env id0 ⟨p.Charm⟩).1 p = env.urlString url2) ∧
    (p.Options = [] → newCalls h (h.addService env id p).1 = [deployCall h p]) ∧
    (∀ y : String, p.Options ≠ [] → env.yamlMarshal p.Service p.Options = .ok y →
      newCalls h (h.addService env id p).1
        = [deployCall h p, .ServiceSetYAML p.Service y] ∧
      (newCalls h (h.addService env id p).1).filter Call.isSetYAML
        = [.ServiceSetYAML p.Service y]) := by
  have hd := deployOrUpgrade_of_deployed env h p c1 hdep
  have hcalls := addService_calls_of_deployed env h _ id p hd
  refine ⟨rfl, ?_, ?_, ?_⟩
  · intro h0 id0 hr
    rcases addCharm_records env h0 id0 ⟨p.Charm⟩ hr with
      ⟨c0, c2, url, repo, url2, hres, _, hadd, _, hrec⟩
    refine ⟨c0, c2, url, repo, url2, hres, hadd, ?_⟩
    show mapGet "" _ _ = _
    rw [hrec, mapGet_mapSet_same]
  · intro ho
    exact newCalls_eq h _ _ (by rw [hcalls, configure_no_options env _ p ho]; simp)
  · intro y ho hy
    have hn : newCalls h (h.addService env id p).1
        = [deployCall h p, .ServiceSetYAML p.Service y] :=
      newCalls_eq h _ _
        (by rw [hcalls, configure_calls_of_options env _ p y ho hy]; simp)
    refine ⟨hn, ?_⟩
    rw [hn]
    rfl

/-- Witness of C14: "mysql" is deployed from the charm added before, with one option. -/
theorem addService_calls_witness :
    newCalls mysqlHandler (mysqlHandler.addService planeEnv "deploy-1"
        ⟨"cs:trusty/mysql", "mysql", [("tuning", "fast")]⟩).1
      = [deployCall mysqlHandler
          (⟨"cs:trusty/mysql", "mysql", [("tuning", "fast")]⟩ : AddServiceParams String),
         .ServiceSetYAML "mysql" "mysql:\n  tuning: fast\n"] :=
  ((addService_calls planeEnv mysqlHandler "deploy-1"
    ⟨"cs:trusty/mysql", "mysql", [("tuning", "fast")]⟩
    { mysqlHandler.client with services := [("mysql", "cs:trusty/mysql-10")] }
    (by decide)).2.2.2 "mysql:\n  tuning: fast\n" (by decide) (by decide)).1

/-- C15: isErrServiceExists holds of an error exactly when its text ends with "service
already exists", and isErrRelationExists exactly when its text ends with "relation already
exists"; a text put in front of an error that a classifier accepts, and the annotation of
any error by errors.Annotate, do not change what the classifiers answer; and no error is
accepted by both. -/
theorem classifiers_by_suffix (e : GoError) :
    (isErrServiceExists e = true ↔ ∃ pre : String, e = pre ++ "service already exists") ∧
    (isErrRelationExists e = true ↔ ∃ pre : String, e = pre ++ "relation already exists") ∧
    (∀ pre : String, isErrServiceExists e = true → isErrServiceExists (pre ++ e) = true) ∧
    (∀ pre : String, isErrRelationExists e = true → isErrRelationExists (pre ++ e) = true) ∧
    (∀ msg : String, isErrServiceExists (Annotate e msg) = isErrServiceExists e ∧
      isErrRelationExists (Annotate e msg) = isErrRelationExists e) ∧
    ¬ (isErrServiceExists e = true ∧ isErrRelationExists e = true) := by
  refine ⟨hasSuffix_iff e _, hasSuffix_iff e _, ?_, ?_, ?_, ?_⟩
  · intro pre hs
    rcases (hasSuffix_iff e _).1 hs with ⟨q, rfl⟩
    exact (hasSuffix_iff _ _).2 ⟨pre ++ q, by rw [String.append_assoc]⟩
  · intro pre hs
    rcases (hasSuffix_iff e _).1 hs with ⟨q, rfl⟩
    exact (hasSuffix_iff _ _).2 ⟨pre ++ q, by rw [String.append_assoc]⟩
  · intro msg
    exact ⟨hasSuffix_annotate e msg _ (by decide) (by intro t ht; simp at ht),
      hasSuffix_annotate e msg _ (by decide) (by intro t ht; simp at ht)⟩
  · rintro ⟨hs, hr⟩
    unfold isErrServiceExists HasSuffix at hs
    unfold isErrRelationExists HasSuffix at hr
    rw [List.isSuffixOf_iff_suffix] at hs hr
    have := List.suffix_of_suffix_length_le hs hr (by decide)
    rw [← List.isSuffixOf_iff_suffix] at this
    revert this
    decide

/-- Witness of C15: the error of a deploy-service call on an existing service, bare and
annotated. -/
theorem classifiers_by_suffix_witness :
    isErrServiceExists ("cannot deploy service \"blog\": " ++
      "cannot add service \"blog\": service already exists") = true ∧
    isErrRelationExists (Annotate "cannot add service \"blog\": service already exists"
      "cannot deploy bundle") = false :=
  ⟨(classifiers_by_suffix "cannot add service \"blog\": service already exists").2.2.1
      "cannot deploy service \"blog\": " (by decide),
   ((classifiers_by_suffix "cannot add service \"blog\": service already exists").2.2.2.2.1
      "cannot deploy bundle").2.trans (by decide)⟩

/-- C16: the handlers of AddMachine, AddUnit and SetAnnotations changes return nil and leave
the handler state as it was, whatever the id and the parameters: no call is made, the
result table is unchanged (nothing is recorded under the id of the change), and the loop of
deployBundle goes on with the next change from the same state. -/
theorem stub_handlers (env : Env σ U R V) (h : bundleHandler σ U R) (id : String)
    (pm : AddMachineParams) (pu : AddUnitParams) (pa : SetAnnotationsParams)
    (rest : List (Change V)) :
    h.addMachine env id pm = (h, .nil) ∧
    h.addUnit env id pu = (h, .nil) ∧
    h.setAnnotations env id pa = (h, .nil) ∧
    newCalls h (h.addMachine env id pm).1 = [] ∧
    newCalls h (h.addUnit env id pu).1 = [] ∧
    newCalls h (h.setAnnotations env id pa).1 = [] ∧
    (h.addMachine env id pm).1.results = h.results ∧
    (h.addUnit env id pu).1.results = h.results ∧
    (h.setAnnotations env id pa).1.results = h.results ∧
    deployLoop env h (.AddMachineChange id pm :: rest) = deployLoop env h rest ∧
    deployLoop env h (.AddUnitChange id pu :: rest) = deployLoop env h rest ∧
    deployLoop env h (.SetAnnotationsChange id pa :: rest) = deployLoop env h rest := by
  refine ⟨rfl, rfl, rfl, ?_, ?_, ?_, rfl, rfl, rfl, rfl, rfl, rfl⟩ <;>
    exact newCalls_eq h _ [] (by simp [bundleHandler.addMachine, bundleHandler.addUnit,
      bundleHandler.setAnnotations])

end LaterClaims

end Bundle
